import Mathlib

/-!
# Bailiff: the authorization pipeline for fork pull requests

A shallow embedding of the package `internal/pkg/bailiff`: the comment
handler and the destination-branch derivation of `handler.go`, the default
trigger pattern of `config.go`, the team whitelist of `whitelist.go` and the
HTTP entry point of `server.go`, with the properties proved of them.

Conventions of the embedding:

* a Go `string` is a Lean `String`; all strings that reach the handler are
  decoded from JSON or YAML and are therefore valid UTF-8.  Go's `len(s)`
  counts bytes and is `String.utf8ByteSize`, `[]byte(s)` is `utf8Bytes s`;
* a Go pointer is an `Option`; the generated getters of go-github are
  nil-safe and are defined on `Option` receivers;
* a Go `error` is `Option GoError` (`none` is `nil`);
* collaborators (GitHub client, whitelist, repusher) are functions from the
  arguments of a call to its answer; each is called at most once per handled
  event, so this loses no behaviour.  The calls made are recorded in order;
* a nil-pointer dereference is the result `Result.panicked`;
* calls are taken one at a time: locks are left out, and a refresh of the
  whitelist is a function from the whitelist before it and the answers of the
  API during it to the whitelist after it.
-/

set_option maxRecDepth 100000

namespace Bailiff

/-! ## Go strings -/

/-- Go's builtin `len` on a string: the number of bytes of its UTF-8 encoding. -/
def len (s : String) : Nat := s.utf8ByteSize

/-- Go's conversion `[]byte(s)`: the UTF-8 encoding of `s`, bytes as naturals below 256. -/
def utf8Bytes (s : String) : List Nat :=
  (s.data.flatMap String.utf8EncodeChar).map UInt8.toNat

/-- True when every byte of `s` is below `utf8.RuneSelf` (0x80). -/
def isASCII (s : String) : Bool := s.data.all fun c => decide (c.toNat < 128)

/-- Go's `strings.ToLower`.  An all-ASCII string takes the fast path, which
adds `'a' - 'A'` to every byte in `'A'..'Z'` (and returns the string as is when
there is none); any other string is mapped rune by rune through
`unicode.ToLower`, whose case tables belong to the Go runtime and are the
parameter `unicodeToLower`.  The parameter is not consulted on ASCII input. -/
def ToLower (unicodeToLower : Char → Char) (s : String) : String :=
  if isASCII s then ⟨s.data.map Char.toLower⟩ else ⟨s.data.map unicodeToLower⟩

/-! ## fmt.Sprintf, for the verbs the package uses -/

/-- Lower-case digit table of package `fmt` (`ldigits`). -/
def ldigits : List Char := "0123456789abcdefx".data

/-- The verb `%x` on one byte: `digits[c>>4]`, `digits[c&0xF]`. -/
def fmtByteHex (c : Nat) : List Char :=
  [ldigits.getD (c >>> 4) '0', ldigits.getD (c &&& 15) '0']

/-- The verb `%x` on a byte array: every byte as two lower-case digits, no separator. -/
def fmtSbx (b : List Nat) : List Char := b.flatMap fmtByteHex

/-- An operand of `Sprintf`: a string or a byte array. -/
inductive FmtArg
  | str (s : String)
  | bytes (b : List Nat)

/-- Formatting loop of `Sprintf`: `%s` consumes a string operand, `%x` a byte
array operand, every other character of the format is copied. -/
def sprintfChars : List Char → List FmtArg → List Char
  | [], _ => []
  | '%' :: 's' :: rest, FmtArg.str s :: args => s.data ++ sprintfChars rest args
  | '%' :: 'x' :: rest, FmtArg.bytes b :: args => fmtSbx b ++ sprintfChars rest args
  | c :: rest, args => c :: sprintfChars rest args

/-- Go's `fmt.Sprintf` restricted to the verbs `%s` and `%x`. -/
def Sprintf (format : String) (args : List FmtArg) : String :=
  ⟨sprintfChars format.data args⟩

/-! ## crypto/sha256 (FIPS 180-4) on 32-bit words held as naturals -/

/-- Round constants of SHA-256 (FIPS 180-4, section 4.2.2). -/
def sha256K : List Nat :=
  [0x428a2f98, 0x71374491, 0xb5c0fbcf, 0xe9b5dba5, 0x3956c25b, 0x59f111f1, 0x923f82a4, 0xab1c5ed5,
   0xd807aa98, 0x12835b01, 0x243185be, 0x550c7dc3, 0x72be5d74, 0x80deb1fe, 0x9bdc06a7, 0xc19bf174,
   0xe49b69c1, 0xefbe4786, 0x0fc19dc6, 0x240ca1cc, 0x2de92c6f, 0x4a7484aa, 0x5cb0a9dc, 0x76f988da,
   0x983e5152, 0xa831c66d, 0xb00327c8, 0xbf597fc7, 0xc6e00bf3, 0xd5a79147, 0x06ca6351, 0x14292967,
   0x27b70a85, 0x2e1b2138, 0x4d2c6dfc, 0x53380d13, 0x650a7354, 0x766a0abb, 0x81c2c92e, 0x92722c85,
   0xa2bfe8a1, 0xa81a664b, 0xc24b8b70, 0xc76c51a3, 0xd192e819, 0xd6990624, 0xf40e3585, 0x106aa070,
   0x19a4c116, 0x1e376c08, 0x2748774c, 0x34b0bcb5, 0x391c0cb3, 0x4ed8aa4a, 0x5b9cca4f, 0x682e6ff3,
   0x748f82ee, 0x78a5636f, 0x84c87814, 0x8cc70208, 0x90befffa, 0xa4506ceb, 0xbef9a3f7, 0xc67178f2]

/-- The eight working words of the hash. -/
structure Digest where
  h0 : Nat
  h1 : Nat
  h2 : Nat
  h3 : Nat
  h4 : Nat
  h5 : Nat
  h6 : Nat
  h7 : Nat
  deriving DecidableEq

/-- Initial hash value (FIPS 180-4, section 5.3.3). -/
def sha256Init : Digest :=
  ⟨0x6a09e667, 0xbb67ae85, 0x3c6ef372, 0xa54ff53a, 0x510e527f, 0x9b05688c, 0x1f83d9ab, 0x5be0cd19⟩

/-- Addition modulo 2^32. -/
def add32 (x y : Nat) : Nat := (x + y) % 4294967296

/-- Rotation of a 32-bit word to the right by `n` bits. -/
def rotr (n x : Nat) : Nat := ((x >>> n) ||| (x <<< (32 - n))) % 4294967296

def bigSigma0 (x : Nat) : Nat := rotr 2 x ^^^ rotr 13 x ^^^ rotr 22 x

def bigSigma1 (x : Nat) : Nat := rotr 6 x ^^^ rotr 11 x ^^^ rotr 25 x

def smallSigma0 (x : Nat) : Nat := rotr 7 x ^^^ rotr 18 x ^^^ (x >>> 3)

def smallSigma1 (x : Nat) : Nat := rotr 17 x ^^^ rotr 19 x ^^^ (x >>> 10)

/-- The choice function; `4294967295 - x` is the 32-bit complement of `x`. -/
def ch (x y z : Nat) : Nat := (x &&& y) ^^^ ((4294967295 - x) &&& z)

def maj (x y z : Nat) : Nat := (x &&& y) ^^^ (x &&& z) ^^^ (y &&& z)

/-- Big-endian 32-bit words of a byte list, four bytes per word. -/
def beWords : List Nat → List Nat
  | a :: b :: c :: d :: rest => (a * 16777216 + b * 65536 + c * 256 + d) :: beWords rest
  | _ => []

/-- Extends the message schedule, kept newest word first, by `n` words:
`W[t] = s1(W[t-2]) + W[t-7] + s0(W[t-15]) + W[t-16]`. -/
def extendSchedule : Nat → List Nat → List Nat
  | 0, w => w
  | n + 1, w =>
    extendSchedule n
      (add32 (add32 (smallSigma1 (w.getD 1 0)) (w.getD 6 0))
             (add32 (smallSigma0 (w.getD 14 0)) (w.getD 15 0)) :: w)

/-- The 64 schedule words of one 64-byte block. -/
def schedule (block : List Nat) : List Nat :=
  (extendSchedule 48 (beWords block).reverse).reverse

/-- One round of the compression function with constant `kw.1` and schedule word `kw.2`. -/
def sha256Round (s : Digest) (kw : Nat × Nat) : Digest :=
  let t1 := add32 (add32 (add32 s.h7 (bigSigma1 s.h4)) (ch s.h4 s.h5 s.h6)) (add32 kw.1 kw.2)
  let t2 := add32 (bigSigma0 s.h0) (maj s.h0 s.h1 s.h2)
  ⟨add32 t1 t2, s.h0, s.h1, s.h2, add32 s.h3 t1, s.h4, s.h5, s.h6⟩

/-- Compression of one block into the running hash. -/
def compress (s : Digest) (block : List Nat) : Digest :=
  let r := (sha256K.zip (schedule block)).foldl sha256Round s
  ⟨add32 s.h0 r.h0, add32 s.h1 r.h1, add32 s.h2 r.h2, add32 s.h3 r.h3,
   add32 s.h4 r.h4, add32 s.h5 r.h5, add32 s.h6 r.h6, add32 s.h7 r.h7⟩

/-- Big-endian bytes of a 64-bit number. -/
def be64 (n : Nat) : List Nat :=
  [n / 72057594037927936 % 256, n / 281474976710656 % 256, n / 1099511627776 % 256,
   n / 4294967296 % 256, n / 16777216 % 256, n / 65536 % 256, n / 256 % 256, n % 256]

/-- Padding: the byte 0x80, zero bytes up to 56 modulo 64, then the bit length
as a 64-bit big-endian number. -/
def pad (msg : List Nat) : List Nat :=
  msg ++ 128 :: List.replicate ((119 - msg.length % 64) % 64) 0
    ++ be64 (8 * msg.length % 18446744073709551616)

/-- Hashes the first `n` 64-byte blocks of `bytes`. -/
def hashBlocks : Nat → Digest → List Nat → Digest
  | 0, s, _ => s
  | n + 1, s, bytes => hashBlocks n (compress s (bytes.take 64)) (bytes.drop 64)

/-- Big-endian bytes of a 32-bit word. -/
def be32 (w : Nat) : List Nat := [w / 16777216 % 256, w / 65536 % 256, w / 256 % 256, w % 256]

/-- Go's `sha256.Sum256`: the 32-byte SHA-256 checksum of `msg`. -/
def Sum256 (msg : List Nat) : List Nat :=
  let d := hashBlocks ((pad msg).length / 64) sha256Init (pad msg)
  be32 d.h0 ++ be32 d.h1 ++ be32 d.h2 ++ be32 d.h3 ++ be32 d.h4 ++ be32 d.h5 ++ be32 d.h6 ++ be32 d.h7

/-! ## Destination branch -/

/-- Source `FormatRepushBranch` (handler.go):
`hash := sha256.Sum256([]byte(fmt.Sprintf("%s/%s", forkRepo, srcBranch)))`,
`return fmt.Sprintf("external-fork/%x", hash)`. -/
def FormatRepushBranch (forkRepo srcBranch : String) : String :=
  let hash := Sum256 (utf8Bytes (Sprintf "%s/%s" [FmtArg.str forkRepo, FmtArg.str srcBranch]))
  Sprintf "external-fork/%x" [FmtArg.bytes hash]

/-! ## Errors -/

/-- A non-nil Go error value.  The first ten constructors are the package's
sentinels, each created once by `errors.New` and equal (`==`) only to itself;
`foreign` is any error value made elsewhere (GitHub client, repusher);
`wrapError` is the fresh value returned by `fmt.Errorf` with the verb `%w`. -/
inductive GoError
  | ErrNoIssue
  | ErrNotPullRequest
  | ErrNotCreation
  | ErrPRNotFound
  | ErrPRNotOpen
  | ErrPRFromUpstream
  | ErrNonWhitelisted
  | ErrCommentTooLong
  | ErrNoTriggerPattern
  | ErrMismatchedSHA
  | foreign (msg : String)
  | wrapError (msg : String) (err : GoError)
  deriving DecidableEq

export GoError (ErrNoIssue ErrNotPullRequest ErrNotCreation ErrPRNotFound ErrPRNotOpen
  ErrPRFromUpstream ErrNonWhitelisted ErrCommentTooLong ErrNoTriggerPattern ErrMismatchedSHA)

/-- A Go value of interface type `error`; `none` is `nil`. -/
abbrev error := Option GoError

/-- The method `Error()`. -/
def GoError.Error : GoError → String
  | ErrNoIssue => "no issue found"
  | ErrNotPullRequest => "not a pull request"
  | ErrNotCreation => "not a creation event"
  | ErrPRNotFound => "pull request not found"
  | ErrPRNotOpen => "pull request not open"
  | ErrPRFromUpstream => "pull request from upstream repo"
  | ErrNonWhitelisted => "non-whitelisted user"
  | ErrCommentTooLong => "comment too long"
  | ErrNoTriggerPattern => "no trigger pattern found"
  | ErrMismatchedSHA => "mismatched SHA"
  | foreign msg => msg
  | wrapError msg _ => msg

/-- Go's `fmt.Errorf(format, err)` for a format that ends in `%w`, given as
the text before the verb: a new error wrapping `err`. -/
def Errorf (text : String) (err : GoError) : GoError :=
  GoError.wrapError (text ++ err.Error) err

def MaxCommentLen : Nat := 1024

def SHAPatternName : String := "sha"

/-- Source `expectedErrors` (handler.go). -/
def expectedErrors : List error :=
  [some ErrNoIssue, some ErrNotPullRequest, some ErrNotCreation, some ErrPRNotFound,
   some ErrPRNotOpen, some ErrPRFromUpstream, some ErrNonWhitelisted, some ErrCommentTooLong,
   some ErrNoTriggerPattern, some ErrMismatchedSHA]

/-! ## The go-github data the handler reads -/

/-- Type `github.PullRequestLinks`; the handler only tests the pointer for nil. -/
structure PullRequestLinks where
  URL : Option String
  deriving DecidableEq

structure User where
  Login : Option String
  deriving DecidableEq

structure Issue where
  Number : Option Int
  PullRequestLinks : Option PullRequestLinks
  deriving DecidableEq

structure IssueComment where
  Body : Option String
  deriving DecidableEq

structure IssueCommentEvent where
  Action : Option String
  Issue : Option Issue
  Comment : Option IssueComment
  Sender : Option User
  deriving DecidableEq

structure Repository where
  FullName : Option String
  deriving DecidableEq

structure PullRequestBranch where
  Ref : Option String
  SHA : Option String
  Repo : Option Repository
  deriving DecidableEq

structure PullRequest where
  State : Option String
  Head : Option PullRequestBranch
  deriving DecidableEq

/-- Type `github.Response`, which embeds the `http.Response`. -/
structure Response where
  StatusCode : Int
  deriving DecidableEq

structure RepoStatus where
  Context : Option String
  State : Option String
  Description : Option String
  deriving DecidableEq

def IssueCommentEvent.GetIssue (e : Option IssueCommentEvent) : Option Bailiff.Issue :=
  e.bind fun v => v.Issue

def IssueCommentEvent.GetAction (e : Option IssueCommentEvent) : String :=
  (e.bind fun v => v.Action).getD ""

def IssueCommentEvent.GetSender (e : Option IssueCommentEvent) : Option User :=
  e.bind fun v => v.Sender

def IssueCommentEvent.GetComment (e : Option IssueCommentEvent) : Option IssueComment :=
  e.bind fun v => v.Comment

def User.GetLogin (u : Option User) : String :=
  (u.bind fun v => v.Login).getD ""

def IssueComment.GetBody (c : Option IssueComment) : String :=
  (c.bind fun v => v.Body).getD ""

def Issue.GetNumber (i : Option Issue) : Int :=
  (i.bind fun v => v.Number).getD 0

/-- Method `func (i Issue) IsPullRequest() bool`: `i.PullRequestLinks != nil`. -/
def Issue.IsPullRequest (i : Issue) : Bool := i.PullRequestLinks.isSome

def PullRequest.GetState (p : Option PullRequest) : String :=
  (p.bind fun v => v.State).getD ""

def PullRequest.GetHead (p : Option PullRequest) : Option PullRequestBranch :=
  p.bind fun v => v.Head

def PullRequestBranch.GetRepo (b : Option PullRequestBranch) : Option Repository :=
  b.bind fun v => v.Repo

def PullRequestBranch.GetRef (b : Option PullRequestBranch) : String :=
  (b.bind fun v => v.Ref).getD ""

def PullRequestBranch.GetSHA (b : Option PullRequestBranch) : String :=
  (b.bind fun v => v.SHA).getD ""

def Repository.GetFullName (r : Option Repository) : String :=
  (r.bind fun v => v.FullName).getD ""

/-! ## Collaborators -/

/-- What `PullRequests.Get` returns: `(*PullRequest, *Response, error)`. -/
structure GetResult where
  pr : Option PullRequest
  res : Option Response
  err : error

/-- The two services of `*github.Client` the handler calls.  Of the values
`Repositories.CreateStatus` returns the handler keeps only the error. -/
structure Client where
  PullRequestsGet : String → String → Int → GetResult
  RepositoriesCreateStatus : String → String → String → RepoStatus → error

/-- Interface `Whitelister`. -/
structure Whitelister where
  Whitelisted : String → Bool

/-- Interface `Repusher`: `Repush(ctx, forkRepo, srcBranch, upstreamBranch, requestedSHA)`. -/
structure Repusher where
  Repush : String → String → String → String → error

/-- A compiled `*regexp.Regexp`, by the two methods `FindCommentSHA` calls.
Package `regexp` returns from `FindStringSubmatch` either nil or a slice as
long as `SubexpNames()`. -/
structure Regexp where
  FindStringSubmatch : String → Option (List String)
  SubexpNames : List String

/-- The fields of `Config` the handler reads; `TriggerPattern` is the pattern
compiled by `Config.Check`. -/
structure Config where
  Org : String
  Repo : String
  TriggerPattern : Regexp
  StatusName : String

structure EventHandler where
  gh : Client
  whitelist : Whitelister
  config : Config
  repusher : Repusher

/-! ## Observable behaviour of one handled event -/

/-- A call made while handling one event. -/
inductive Call
  | PullRequestsGet (owner repo : String) (number : Int)
  | Whitelisted (login : String)
  | FindCommentSHA (comment : String)
  | Repush (forkRepo srcBranch upstreamBranch requestedSHA : String)
  | CreateStatus (owner repo ref : String) (status : RepoStatus)
  deriving DecidableEq

/-- How a call of the handler ends: it returns an `error`, or it panics. -/
inductive Result
  | returned (err : error)
  | panicked
  deriving DecidableEq

structure Outcome where
  result : Result
  calls : List Call
  deriving DecidableEq

/-! ## handler.go -/

/-- The loop of `FindCommentSHA` over `re.SubexpNames()`, at index `i`. -/
def findNamedGroup : List String → Nat → List String → String
  | [], _, _ => ""
  | name :: rest, i, m =>
    if name = SHAPatternName then m.getD i "" else findNamedGroup rest (i + 1) m

/-- Source `FindCommentSHA` (handler.go). -/
def FindCommentSHA (re : Regexp) (comment : String) : String :=
  match re.FindStringSubmatch comment with
  | none => ""
  | some m => findNamedGroup re.SubexpNames 0 m

/-- Source `EventHandler.OnIssueComment` (handler.go).  The log lines are left
out; `res.StatusCode` on a nil `res` is the panic. -/
def OnIssueComment (unicodeToLower : Char → Char) (h : EventHandler)
    (e : Option IssueCommentEvent) : Outcome :=
  match IssueCommentEvent.GetIssue e with
  | none => ⟨.returned (some ErrNoIssue), []⟩
  | some issue =>
    if !issue.IsPullRequest then ⟨.returned (some ErrNotPullRequest), []⟩
    else if IssueCommentEvent.GetAction e ≠ "created" then ⟨.returned (some ErrNotCreation), []⟩
    else
      let got := h.gh.PullRequestsGet h.config.Org h.config.Repo (Issue.GetNumber (some issue))
      let c1 := [Call.PullRequestsGet h.config.Org h.config.Repo (Issue.GetNumber (some issue))]
      match got.err with
      | some err =>
        match got.res with
        | none => ⟨.panicked, c1⟩
        | some res =>
          if res.StatusCode = 404 then ⟨.returned (some ErrPRNotFound), c1⟩
          else ⟨.returned (some (Errorf "failed to get pull request: " err)), c1⟩
      | none =>
        let pr := got.pr
        if PullRequest.GetState pr ≠ "open" then ⟨.returned (some ErrPRNotOpen), c1⟩
        else
          let forkRepo := Repository.GetFullName (PullRequestBranch.GetRepo (PullRequest.GetHead pr))
          if forkRepo = Sprintf "%s/%s" [FmtArg.str h.config.Org, FmtArg.str h.config.Repo] then
            ⟨.returned (some ErrPRFromUpstream), c1⟩
          else
            let login := User.GetLogin (IssueCommentEvent.GetSender e)
            let c2 := c1 ++ [Call.Whitelisted login]
            if !h.whitelist.Whitelisted login then ⟨.returned (some ErrNonWhitelisted), c2⟩
            else
              let commentBody := IssueComment.GetBody (IssueCommentEvent.GetComment e)
              if len commentBody > MaxCommentLen then ⟨.returned (some ErrCommentTooLong), c2⟩
              else
                let c3 := c2 ++ [Call.FindCommentSHA commentBody]
                let requestedSHA := FindCommentSHA h.config.TriggerPattern commentBody
                if requestedSHA = "" then ⟨.returned (some ErrNoTriggerPattern), c3⟩
                else
                  let requestedSHA := ToLower unicodeToLower requestedSHA
                  let srcBranch := PullRequestBranch.GetRef (PullRequest.GetHead pr)
                  let upstreamBranch := FormatRepushBranch forkRepo srcBranch
                  let headSHA := PullRequestBranch.GetSHA (PullRequest.GetHead pr)
                  if headSHA ≠ requestedSHA then ⟨.returned (some ErrMismatchedSHA), c3⟩
                  else
                    let c4 := c3 ++ [Call.Repush forkRepo srcBranch upstreamBranch headSHA]
                    match h.repusher.Repush forkRepo srcBranch upstreamBranch headSHA with
                    | some err => ⟨.returned (some (Errorf "failed to repush: " err)), c4⟩
                    | none =>
                      let status : RepoStatus :=
                        ⟨some h.config.StatusName, some "success",
                         some (Sprintf "Successfully repushed %s at %s."
                           [FmtArg.str srcBranch, FmtArg.str headSHA])⟩
                      let c5 := c4 ++ [Call.CreateStatus h.config.Org h.config.Repo headSHA status]
                      match h.gh.RepositoriesCreateStatus h.config.Org h.config.Repo headSHA status with
                      | some err => ⟨.returned (some (Errorf "failed to create check run: " err)), c5⟩
                      | none => ⟨.returned none, c5⟩

/-- Source `EventHandler.ServeOnIssueComment` (handler.go):
`if slices.Contains(expectedErrors, err) return nil; return err`. -/
def ServeOnIssueComment (unicodeToLower : Char → Char) (h : EventHandler)
    (e : Option IssueCommentEvent) : Outcome :=
  let o := OnIssueComment unicodeToLower h e
  match o.result with
  | .panicked => o
  | .returned err => if expectedErrors.contains err then ⟨.returned none, o.calls⟩ else o

/-! ## Names for the values the handler computes -/

/-- Source `forkRepo := pr.GetHead().GetRepo().GetFullName()`. -/
abbrev forkRepoOf (pr : Option PullRequest) : String :=
  Repository.GetFullName (PullRequestBranch.GetRepo (PullRequest.GetHead pr))

/-- Source `srcBranch := pr.GetHead().GetRef()`. -/
abbrev srcBranchOf (pr : Option PullRequest) : String :=
  PullRequestBranch.GetRef (PullRequest.GetHead pr)

/-- Source `headSHA := pr.GetHead().GetSHA()`. -/
abbrev headSHAOf (pr : Option PullRequest) : String :=
  PullRequestBranch.GetSHA (PullRequest.GetHead pr)

/-- Source `commentBody := e.GetComment().GetBody()`. -/
abbrev commentBodyOf (e : Option IssueCommentEvent) : String :=
  IssueComment.GetBody (IssueCommentEvent.GetComment e)

/-- Source `e.GetSender().GetLogin()`. -/
abbrev senderLoginOf (e : Option IssueCommentEvent) : String :=
  User.GetLogin (IssueCommentEvent.GetSender e)

/-- The answer of the pull-request fetch the handler makes for `issue`. -/
abbrev fetchOf (h : EventHandler) (issue : Issue) : GetResult :=
  h.gh.PullRequestsGet h.config.Org h.config.Repo (Issue.GetNumber (some issue))

/-- The commit status the handler publishes for `pr`. -/
abbrev successStatus (h : EventHandler) (pr : Option PullRequest) : RepoStatus :=
  ⟨some h.config.StatusName, some "success",
   some ("Successfully repushed " ++ srcBranchOf pr ++ " at " ++ headSHAOf pr ++ ".")⟩

/-- Checks 1 to 3: the event carries `issue`, it is a pull request, the action is "created". -/
structure Checks1to3 (e : Option IssueCommentEvent) (issue : Issue) : Prop where
  hasIssue : IssueCommentEvent.GetIssue e = some issue
  isPullRequest : issue.IsPullRequest = true
  created : IssueCommentEvent.GetAction e = "created"

/-- Checks 1 to 7: also the fetch succeeded and answered `pr`, which is open
and comes from a fork, and the sender is whitelisted. -/
structure Checks1to7 (h : EventHandler) (e : Option IssueCommentEvent) (issue : Issue)
    (pr : Option PullRequest) extends Checks1to3 e issue : Prop where
  fetched : (fetchOf h issue).err = none
  fetchedPR : (fetchOf h issue).pr = pr
  isOpen : PullRequest.GetState pr = "open"
  fromFork : forkRepoOf pr ≠ h.config.Org ++ "/" ++ h.config.Repo
  whitelisted : h.whitelist.Whitelisted (senderLoginOf e) = true

/-- Checks 1 to 9: also the body has at most `MaxCommentLen` bytes and the
trigger pattern yields a non-empty SHA. -/
structure Checks1to9 (h : EventHandler) (e : Option IssueCommentEvent) (issue : Issue)
    (pr : Option PullRequest) extends Checks1to7 h e issue pr : Prop where
  notTooLong : len (commentBodyOf e) ≤ MaxCommentLen
  hasTrigger : FindCommentSHA h.config.TriggerPattern (commentBodyOf e) ≠ ""

/-- All ten checks: also the lower-cased SHA of the comment is the head SHA of `pr`. -/
structure Checks1to10 (unicodeToLower : Char → Char) (h : EventHandler)
    (e : Option IssueCommentEvent) (issue : Issue) (pr : Option PullRequest)
    extends Checks1to9 h e issue pr : Prop where
  shaMatches :
    ToLower unicodeToLower (FindCommentSHA h.config.TriggerPattern (commentBodyOf e)) = headSHAOf pr

/-- True on the calls of `Repusher.Repush`. -/
def Call.isRepush : Call → Bool
  | Call.Repush _ _ _ _ => true
  | _ => false

/-- True on the calls of `Repositories.CreateStatus`. -/
def Call.isCreateStatus : Call → Bool
  | Call.CreateStatus _ _ _ _ => true
  | _ => false

/-! ## The encoding named by the specification -/

/-- Lower-case hexadecimal encoding of a byte string, as the specification
words it: two base-16 digits per byte, the high digit first, digits
`0-9a-f`. -/
def hexEncode (bytes : List Nat) : String :=
  ⟨bytes.flatMap fun b => [Nat.digitChar (b / 16), Nat.digitChar (b % 16)]⟩

/-! ## The fixture of handler_test.go -/

/-- The character class `[a-f0-9]`. -/
def isShaChar (c : Char) : Bool :=
  (decide ('a' ≤ c) && decide (c ≤ 'f')) || (decide ('0' ≤ c) && decide (c ≤ '9'))

/-- Removes the literal `lit` from the front of `s`, if `s` starts with it. -/
def stripLeading : List Char → List Char → Option (List Char)
  | [], s => some s
  | _ :: _, [] => none
  | p :: ps, c :: cs => if p = c then stripLeading ps cs else none

/-- The pattern of the test, `^/ci authorize (?P<sha>[a-f0-9]+)$`, compiled
without the flag `m`: `^` and `$` are the two ends of the text, so the text
matches when it is the literal followed by one or more characters of the
class, and the submatches are the text and the group `sha`. -/
def testTriggerPattern : Regexp where
  FindStringSubmatch s :=
    match stripLeading "/ci authorize ".data s.data with
    | some g => if g ≠ [] ∧ g.all isShaChar = true then some [s, ⟨g⟩] else none
    | none => none
  SubexpNames := ["", "sha"]

/-- The pattern `(?s)^(?P<sha>.*)$`: every text matches, the group is the text. -/
def wholeCommentPattern : Regexp where
  FindStringSubmatch s := some [s, s]
  SubexpNames := ["", "sha"]

/-- The map `prs` of the test: pull requests 1, 2 and 3. -/
def testPullRequests (number : Int) : Option PullRequest :=
  if number = 1 then some ⟨some "closed", none⟩
  else if number = 2 then
    some ⟨some "open", some ⟨none, none, some ⟨some "ethereum-optimism/optimism"⟩⟩⟩
  else if number = 3 then
    some ⟨some "open", some ⟨some "feat/super-branch", some "aaaaaaaa",
      some ⟨some "not-ethereum-optimism/optimism"⟩⟩⟩
  else none

/-- The mocked GitHub API of the test: a known pull request is answered with
status 200, any other number with status 404 and an error; posting a status
succeeds. -/
def testClient : Client where
  PullRequestsGet _ _ number :=
    match testPullRequests number with
    | some pr => ⟨some pr, some ⟨200⟩, none⟩
    | none => ⟨none, some ⟨404⟩, some (GoError.foreign "404 Not Found")⟩
  RepositoriesCreateStatus _ _ _ _ := none

/-- The handler `hdlr` of the test, with the answers of the two mocked
writes as parameters: `mockWhitelist` holds the one login "whitelisted",
`Repush` answers `repushAnswer`, posting a status answers `statusAnswer`. -/
def testHandlerWith (repushAnswer statusAnswer : error) : EventHandler where
  gh := ⟨testClient.PullRequestsGet, fun _ _ _ _ => statusAnswer⟩
  whitelist := ⟨fun login => decide (login = "whitelisted")⟩
  config := ⟨"ethereum-optimism", "optimism", testTriggerPattern, ""⟩
  repusher := ⟨fun _ _ _ _ => repushAnswer⟩

/-- The handler `hdlr` of the test: both mocked writes succeed. -/
def testHandler : EventHandler := testHandlerWith none none

/-- An event shaped as those of the test: action "created" on the issue
`number`, which has pull-request links, from `login`, with comment `body`. -/
def testEvent (number : Int) (login body : String) : Option IssueCommentEvent :=
  some ⟨some "created", some ⟨some number, some ⟨none⟩⟩, some ⟨some body⟩, some ⟨some login⟩⟩

/-- The test handler behind a GitHub client whose fetch fails before any
response is received (a network error): `PullRequests.Get` returns
`(nil, nil, err)`. -/
def offlineHandler : EventHandler where
  gh := ⟨fun _ _ _ => ⟨none, none, some (GoError.foreign "dial tcp: connection refused")⟩,
         fun _ _ _ _ => none⟩
  whitelist := testHandler.whitelist
  config := testHandler.config
  repusher := testHandler.repusher

/-- The test handler configured with the pattern `wholeCommentPattern`, which
also admits upper-case letters in the SHA. -/
def anyCaseHandler : EventHandler where
  gh := testHandler.gh
  whitelist := testHandler.whitelist
  config := ⟨"ethereum-optimism", "optimism", wholeCommentPattern, ""⟩
  repusher := testHandler.repusher

/-- A comment body of 1024 times the two-byte character U+00E9. -/
def accentedBody : String := String.mk (List.replicate 1024 (Char.ofNat 233))

/-- Pull request 3 of the test. -/
def testPR3 : Option PullRequest := testPullRequests 3

/-- The issue of `testEvent 3 _ _`. -/
def testIssue3 : Issue := ⟨some 3, some ⟨none⟩⟩

/-! ## Package regexp, for the operators of the trigger pattern -/

/-- Syntax tree of a regular expression: the operators that occur in the
default trigger pattern, under the flag `m`. -/
inductive Re
  | empty
  | lit (c : Char)
  | cls (p : Char → Bool)
  | beginLine
  | endLine
  | cat (a b : Re)
  | plus (a : Re)
  | cap (index : Nat) (name : String) (a : Re)

/-- A position in the text: the text before it, last character first, and the
text after it. -/
structure Cursor where
  before : List Char
  rest : List Char

/-- Texts captured so far, by group index, latest first. -/
abbrev Caps := List (Nat × List Char)

/-- Greedy repetition, one or more times, of a matcher `step`: after each
match of `step` that consumed text, more repetitions are tried before stopping
there.  The fuel bounds the number of repetitions by the length of the text. -/
def plusLoop (step : Cursor → Caps → List (Cursor × Caps)) :
    Nat → Cursor → Caps → List (Cursor × Caps)
  | 0, _, _ => []
  | fuel + 1, cur, caps =>
    (step cur caps).flatMap fun r =>
      (if r.1.rest.length < cur.rest.length then plusLoop step fuel r.1 r.2 else []) ++ [r]

/-- All matches of `re` that start at `cur`, in the order of preference of a
backtracking search (leftmost-first semantics of package `regexp`): each
match is the position after it with the captures made. -/
def Re.run : Re → Cursor → Caps → List (Cursor × Caps)
  | .empty, cur, caps => [(cur, caps)]
  | .lit c, cur, caps =>
    match cur.rest with
    | x :: t => if x = c then [(⟨x :: cur.before, t⟩, caps)] else []
    | [] => []
  | .cls p, cur, caps =>
    match cur.rest with
    | x :: t => if p x = true then [(⟨x :: cur.before, t⟩, caps)] else []
    | [] => []
  | .beginLine, cur, caps =>
    match cur.before with
    | [] => [(cur, caps)]
    | x :: _ => if x = '\n' then [(cur, caps)] else []
  | .endLine, cur, caps =>
    match cur.rest with
    | [] => [(cur, caps)]
    | x :: _ => if x = '\n' then [(cur, caps)] else []
  | .cat a b, cur, caps => (a.run cur caps).flatMap fun r => b.run r.1 r.2
  | .plus a, cur, caps => plusLoop (fun c k => a.run c k) (cur.rest.length + 1) cur caps
  | .cap index _ a, cur, caps =>
    (a.run cur caps).map fun r =>
      (r.1, (index, cur.rest.take (cur.rest.length - r.1.rest.length)) :: r.2)

/-- The capture groups of `re`, index and name, in order of appearance. -/
def Re.groups : Re → List (Nat × String)
  | .cat a b => a.groups ++ b.groups
  | .plus a => a.groups
  | .cap index name a => (index, name) :: a.groups
  | _ => []

/-- The submatches of the preferred match of `re` at `cur`, if there is a
match: the matched text, then the text of every group (empty when the group
took no part). -/
def submatchesAt (re : Re) (cur : Cursor) : Option (List String) :=
  match re.run cur [] with
  | [] => none
  | r :: _ =>
    some (String.mk (cur.rest.take (cur.rest.length - r.1.rest.length))
      :: re.groups.map fun g => String.mk ((r.2.lookup g.1).getD []))

/-- Leftmost match: the start positions are tried from left to right. -/
def findFrom (re : Re) : List Char → List Char → Option (List String)
  | before, [] => submatchesAt re ⟨before, []⟩
  | before, c :: t =>
    match submatchesAt re ⟨before, c :: t⟩ with
    | some m => some m
    | none => findFrom re (c :: before) t

/-- A compiled expression, with the two methods of `*regexp.Regexp` that `FindCommentSHA` calls. -/
def Re.compile (re : Re) : Regexp where
  FindStringSubmatch s := findFrom re [] s.data
  SubexpNames := "" :: re.groups.map Prod.snd

/-- The expression matching the characters of `s` one after the other. -/
def Re.lits : List Char → Re
  | [] => Re.empty
  | c :: cs => Re.cat (Re.lit c) (Re.lits cs)

/-- Source `Config.Check` (config.go): the default of `TriggerPatternStr`. -/
def defaultTriggerPatternStr : String := "(?m)^/ci authorize (?P<sha>[a-f0-9]+)$"

/-- Syntax tree of `defaultTriggerPatternStr`: under the flag `m`, `^`, the
literal text, the group `sha` around `[a-f0-9]+`, `$`. -/
def defaultTriggerRe : Re :=
  Re.cat Re.beginLine
    (Re.cat (Re.lits "/ci authorize ".data)
      (Re.cat (Re.cap 1 "sha" (Re.plus (Re.cls isShaChar))) Re.endLine))

/-- The pattern `Config.Check` compiles when the configuration names none. -/
def defaultTriggerPattern : Regexp := defaultTriggerRe.compile

/-! ## The trigger comment as the specification words it -/

/-- The lines of a text, separated by the newline character. -/
def splitLines : List Char → List (List Char)
  | [] => [[]]
  | c :: t =>
    if c = '\n' then [] :: splitLines t
    else
      match splitLines t with
      | l :: ls => (c :: l) :: ls
      | [] => [[c]]

/-- The SHA of a line that is exactly "/ci authorize " followed by one or more
characters of `0-9a-f`. -/
def shaOfLine (line : List Char) : Option (List Char) :=
  match stripLeading "/ci authorize ".data line with
  | some g => if g ≠ [] ∧ g.all isShaChar = true then some g else none
  | none => none

/-- The SHA of the first line of `body` that has the form of a trigger, or
the empty string when no line has it. -/
def firstTriggerSHA (body : String) : String :=
  match (splitLines body.data).findSome? shaOfLine with
  | some g => String.mk g
  | none => ""

/-! ## Auxiliary functions of the proofs about the trigger pattern -/

/-- The positions reached by a greedy repetition of the class `p` from the
text `t`, longest first. -/
def greedyClass (p : Char → Bool) : List Char → List Char → List Cursor
  | _, [] => []
  | before, x :: t =>
    if p x = true then greedyClass p (x :: before) t ++ [⟨x :: before, t⟩] else []

/-- True at the end of a line: at the end of the text or before a newline. -/
def atLineEnd : List Char → Bool
  | [] => true
  | x :: _ => decide (x = '\n')

/-- True at the start of a line, given the text before, last character first. -/
def atLineStart : List Char → Bool
  | [] => true
  | x :: _ => decide (x = '\n')

/-- The text up to the first newline. -/
def firstLine : List Char → List Char
  | [] => []
  | c :: t => if c = '\n' then [] else c :: firstLine t

/-- The submatches of the trigger pattern for a match that starts at the
beginning of `text`. -/
def triggerAt (text : List Char) : Option (List String) :=
  match stripLeading "/ci authorize ".data text with
  | some r =>
    if r.takeWhile isShaChar ≠ [] ∧ atLineEnd (r.dropWhile isShaChar) = true then
      some [String.mk ("/ci authorize ".data ++ r.takeWhile isShaChar),
            String.mk (r.takeWhile isShaChar)]
    else none
  | none => none


/-- The submatches for the SHA `g`: the matched text and the group. -/
def triggerSubmatches (g : List Char) : List String :=
  [String.mk ("/ci authorize ".data ++ g), String.mk g]

/-! ## whitelist.go -/

/-- What `Teams.ListTeamMembersBySlug` returns, without the response:
`([]*User, error)`. -/
structure MembersResult where
  members : List (Option User)
  err : error

/-- The GitHub API as one refresh cycle sees it: the answer to the call number
`i` (from 0) that the cycle makes of `ListTeamMembersBySlug(ctx, org, slug, nil)`. -/
abbrev TeamsAPI := Nat → String → String → MembersResult

/-- A Go `map[string]bool`, by what a lookup returns: an absent key, and any
key of the nil map, reads `false`. -/
abbrev LoginSet := String → Bool

/-- The assignment `loginsSet[login] = true`. -/
def LoginSet.set (s : LoginSet) (login : String) : LoginSet :=
  fun k => if k = login then true else s k

/-- Type `TeamWhitelist` without its client and lock: calls are taken one at a time. -/
structure TeamWhitelist where
  logins : LoginSet
  teams : List String
  org : String

/-- Source `NewTeamWhitelist` (whitelist.go): `logins` starts as the nil map. -/
def NewTeamWhitelist (org : String) (teams : List String) : TeamWhitelist :=
  ⟨fun _ => false, teams, org⟩

/-- Source `TeamWhitelist.Whitelisted`: `m.logins[login]`. -/
def TeamWhitelist.Whitelisted (m : TeamWhitelist) (login : String) : Bool :=
  m.logins login

/-- A `*TeamWhitelist` used as a `Whitelister`. -/
def TeamWhitelist.toWhitelister (m : TeamWhitelist) : Whitelister :=
  ⟨m.Whitelisted⟩

/-- Source `TeamWhitelist.syncTeam`, given the answer `r` of the API call:
the map after the call, and the error. -/
def syncTeam (r : MembersResult) (loginsSet : LoginSet) : LoginSet × error :=
  match r.err with
  | some err => (loginsSet, some (Errorf "failed to list team members: " err))
  | none => (r.members.foldl (fun s member => s.set (User.GetLogin member)) loginsSet, none)

/-- The loop of `TeamWhitelist.sync` over the teams left, `i` calls made so far. -/
def syncTeams (gh : TeamsAPI) (org : String) : List String → Nat → LoginSet → LoginSet × error
  | [], _, loginsSet => (loginsSet, none)
  | team :: rest, i, loginsSet =>
    match syncTeam (gh i org team) loginsSet with
    | (s, some err) =>
      (s, some (Errorf (Sprintf "failed to sync team %s: " [FmtArg.str team]) err))
    | (s, none) => syncTeams gh org rest (i + 1) s

/-- Source `TeamWhitelist.sync`: the whitelist after the call, and the error. -/
def TeamWhitelist.sync (m : TeamWhitelist) (gh : TeamsAPI) : TeamWhitelist × error :=
  match syncTeams gh m.org m.teams 0 (fun _ => false) with
  | (_, some err) => (m, some err)
  | (s, none) => (⟨s, m.teams, m.org⟩, none)

/-! ## The fixture of whitelist_test.go -/

/-- The teams of the test. -/
def testTeams : List String := ["editors", "maintainers"]

/-- A cycle in which every team is answered with no member. -/
def emptyCycle : TeamsAPI := fun _ _ _ => ⟨[], none⟩

/-- A cycle answered with the memberships of the test. -/
def membersCycle : TeamsAPI := fun _ _ team =>
  if team = "editors" then ⟨[some ⟨some "john"⟩, some ⟨some "jenny"⟩], none⟩
  else if team = "maintainers" then ⟨[some ⟨some "jenny"⟩, some ⟨some "max"⟩], none⟩
  else ⟨[], none⟩

/-- A cycle in which the first team is answered and the second query fails. -/
def failingCycle : TeamsAPI := fun i _ _ =>
  if i = 0 then ⟨[some ⟨some "mallory"⟩], none⟩ else ⟨[], some (GoError.foreign "502 Bad Gateway")⟩

/-- The whitelist of the test after its two refreshes. -/
def testWhitelist : TeamWhitelist :=
  (((NewTeamWhitelist "ethereum-optimism" testTeams).sync emptyCycle).1.sync membersCycle).1

/-! ## server.go -/

/-- What `ServeHTTP` and the webhook library read of an `*http.Request`:
the method, `r.URL.Path`, the header `X-GitHub-Event` that
`github.WebHookType` returns, and the body. -/
structure Request where
  Method : String
  Path : String
  WebHookType : String
  Body : String

/-- A parsed webhook event: the case `*github.IssueCommentEvent` of the type
switch, or an event of any other kind. -/
inductive WebhookEvent
  | issueComment (e : IssueCommentEvent)
  | other (kind : String)

/-- What `github.ValidatePayload` returns: `(payload []byte, err error)`. -/
structure ValidateResult where
  payload : String
  err : error

/-- What `github.ParseWebHook` returns: `(interface, error)`. -/
structure ParseResult where
  event : Option WebhookEvent
  err : error

/-- The two functions of go-github that `ServeHTTP` calls. -/
structure WebhookLib where
  ValidatePayload : Request → String → ValidateResult
  ParseWebHook : String → String → ParseResult

/-- Type `Server`; `evHdlr` is the method `ServeOnIssueComment` of the
interface `EventHandlerServer`, which returns an error or panics. -/
structure Server where
  webhookSecret : String
  evHdlr : Option IssueCommentEvent → Result

/-- A step of `ServeHTTP` that can be observed from outside. -/
inductive ServerCall
  | ValidatePayload
  | ParseWebHook (messageType : String)
  | RecordReceivedWebhook (event : String)
  | ServeOnIssueComment (e : IssueCommentEvent)
  | RecordHTTPRequest (code : Nat)
  deriving DecidableEq

/-- The response written with `WriteHeader` and `Write`. -/
structure HTTPResponse where
  code : Nat
  body : String
  deriving DecidableEq

/-- What one call of `ServeHTTP` does: the response, if one was written before
the call ended, and the steps made. -/
structure Served where
  response : Option HTTPResponse
  calls : List ServerCall
  deriving DecidableEq

/-- Source `writeStatus` (server.go), after the steps `calls`. -/
def writeStatus (calls : List ServerCall) (code : Nat) (msg : String) : Served :=
  ⟨some ⟨code, msg⟩, calls ++ [ServerCall.RecordHTTPRequest code]⟩

/-- Source `Server.ServeHTTP` (server.go), without the log lines and the
request timeout. -/
def Server.ServeHTTP (lib : WebhookLib) (s : Server) (r : Request) : Served :=
  if r.Method = "GET" ∧ r.Path = "/healthz" then writeStatus [] 200 "ok"
  else
    let validated := lib.ValidatePayload r s.webhookSecret
    let c1 := [ServerCall.ValidatePayload]
    match validated.err with
    | some _ => writeStatus c1 400 "invalid request"
    | none =>
      let parsed := lib.ParseWebHook r.WebHookType validated.payload
      let c2 := c1 ++ [ServerCall.ParseWebHook r.WebHookType]
      match parsed.err with
      | some _ => writeStatus c2 400 "invalid request"
      | none =>
        let c3 := c2 ++ [ServerCall.RecordReceivedWebhook r.WebHookType]
        match parsed.event with
        | some (WebhookEvent.issueComment e) =>
          let c4 := c3 ++ [ServerCall.ServeOnIssueComment e]
          match s.evHdlr (some e) with
          | Result.panicked => ⟨none, c4⟩
          | Result.returned (some _) => writeStatus c4 500 "failed to process issue comment"
          | Result.returned none => writeStatus c4 200 "ok"
        | _ => writeStatus c3 200 "ok"

/-- True on the calls of the event handler. -/
def ServerCall.isHandler : ServerCall → Bool
  | ServerCall.ServeOnIssueComment _ => true
  | _ => false

/-! ## The fixture of server_test.go -/

/-- The library go-github on the requests of the test: with the empty secret
of the test the body is the payload; the payload of an "issue_comment" is the
JSON object of an event with the action "created" or of the empty event, that
of a "label" is the empty object; any other payload, and any other event
type, is an error. -/
def testWebhookLib : WebhookLib where
  ValidatePayload r _ := ⟨r.Body, none⟩
  ParseWebHook messageType payload :=
    if messageType = "issue_comment" then
      if payload = "\x7b\"action\":\"created\"\x7d" then
        ⟨some (WebhookEvent.issueComment ⟨some "created", none, none, none⟩), none⟩
      else if payload = "\x7b\x7d" then
        ⟨some (WebhookEvent.issueComment ⟨none, none, none, none⟩), none⟩
      else ⟨none, some (GoError.foreign "json: cannot unmarshal")⟩
    else if messageType = "label" then
      if payload = "\x7b\x7d" then ⟨some (WebhookEvent.other "label"), none⟩
      else ⟨none, some (GoError.foreign "json: cannot unmarshal")⟩
    else ⟨none, some (GoError.foreign "unknown X-Github-Event in message")⟩

/-- The server of the test: `mockEvHandlerServer` returns nil. -/
def testServer : Server := ⟨"", fun _ => Result.returned none⟩

/-- A request of the test: a POST to the root with the event type and body. -/
def testRequest (eventType body : String) : Request := ⟨"POST", "/", eventType, body⟩

/-! ## Decoding of the branch name, for the proofs -/

/-- Decodes one lower-case hexadecimal digit. -/
def unhexDigit (c : Char) : Nat :=
  if c.toNat < 58 then c.toNat - 48 else c.toNat - 87

/-- Decodes two hexadecimal digits into a byte. -/
def unhexByte : List Char → Nat
  | [x, y] => unhexDigit x * 16 + unhexDigit y
  | _ => 0

theorem sprintf_slash (a b : String) :
    Sprintf "%s/%s" [FmtArg.str a, FmtArg.str b] = a ++ "/" ++ b := by
  apply String.ext
  simp [Sprintf, sprintfChars]

theorem sprintf_repushed (a b : String) :
    Sprintf "Successfully repushed %s at %s." [FmtArg.str a, FmtArg.str b]
      = "Successfully repushed " ++ a ++ " at " ++ b ++ "." := by
  apply String.ext
  simp [Sprintf, sprintfChars]

/-- The handler's outcome when all ten checks pass. -/
theorem onIssueComment_of_checks (U : Char → Char) (h : EventHandler)
    (e : Option IssueCommentEvent) (issue : Issue) (pr : Option PullRequest)
    (hc : Checks1to10 U h e issue pr) :
    OnIssueComment U h e =
      let c4 := [Call.PullRequestsGet h.config.Org h.config.Repo (Issue.GetNumber (some issue)),
                 Call.Whitelisted (senderLoginOf e), Call.FindCommentSHA (commentBodyOf e),
                 Call.Repush (forkRepoOf pr) (srcBranchOf pr)
                   (FormatRepushBranch (forkRepoOf pr) (srcBranchOf pr)) (headSHAOf pr)]
      let c5 := c4 ++ [Call.CreateStatus h.config.Org h.config.Repo (headSHAOf pr) (successStatus h pr)]
      match h.repusher.Repush (forkRepoOf pr) (srcBranchOf pr)
              (FormatRepushBranch (forkRepoOf pr) (srcBranchOf pr)) (headSHAOf pr) with
      | some err => ⟨.returned (some (Errorf "failed to repush: " err)), c4⟩
      | none =>
        match h.gh.RepositoriesCreateStatus h.config.Org h.config.Repo (headSHAOf pr)
                (successStatus h pr) with
        | some err => ⟨.returned (some (Errorf "failed to create check run: " err)), c5⟩
        | none => ⟨.returned none, c5⟩ := by
  obtain ⟨⟨⟨⟨h1, h2, h3⟩, h4, h5, h6, h7, h8⟩, h9, h10⟩, h11⟩ := hc
  subst h5
  have h9' : ¬ len (commentBodyOf e) > MaxCommentLen := Nat.not_lt.mpr h9
  simp only [OnIssueComment, h1, h2, h3, h4, h6, h8, h9', h10, h11, sprintf_slash, sprintf_repushed]
  simp [h7]

/-! ### The handler, branch by branch -/

theorem branch_noIssue (U : Char → Char) (h : EventHandler) (e : Option IssueCommentEvent)
    (h1 : IssueCommentEvent.GetIssue e = none) :
    OnIssueComment U h e = ⟨.returned (some ErrNoIssue), []⟩ := by
  simp [OnIssueComment, h1]

theorem branch_notPullRequest (U : Char → Char) (h : EventHandler)
    (e : Option IssueCommentEvent) (issue : Issue)
    (h1 : IssueCommentEvent.GetIssue e = some issue) (h2 : issue.IsPullRequest = false) :
    OnIssueComment U h e = ⟨.returned (some ErrNotPullRequest), []⟩ := by
  simp [OnIssueComment, h1, h2]

theorem branch_notCreation (U : Char → Char) (h : EventHandler)
    (e : Option IssueCommentEvent) (issue : Issue)
    (h1 : IssueCommentEvent.GetIssue e = some issue) (h2 : issue.IsPullRequest = true)
    (h3 : IssueCommentEvent.GetAction e ≠ "created") :
    OnIssueComment U h e = ⟨.returned (some ErrNotCreation), []⟩ := by
  simp [OnIssueComment, h1, h2, h3]

theorem branch_fetchNoResponse (U : Char → Char) (h : EventHandler)
    (e : Option IssueCommentEvent) (issue : Issue) (err : GoError)
    (hc : Checks1to3 e issue) (h4 : (fetchOf h issue).err = some err)
    (h5 : (fetchOf h issue).res = none) :
    OnIssueComment U h e
      = ⟨.panicked, [Call.PullRequestsGet h.config.Org h.config.Repo (Issue.GetNumber (some issue))]⟩ := by
  obtain ⟨h1, h2, h3⟩ := hc
  simp only [fetchOf] at h4 h5
  simp [OnIssueComment, h1, h2, h3, h4, h5]

theorem branch_notFound (U : Char → Char) (h : EventHandler)
    (e : Option IssueCommentEvent) (issue : Issue) (err : GoError) (res : Response)
    (hc : Checks1to3 e issue) (h4 : (fetchOf h issue).err = some err)
    (h5 : (fetchOf h issue).res = some res) (h6 : res.StatusCode = 404) :
    OnIssueComment U h e
      = ⟨.returned (some ErrPRNotFound),
         [Call.PullRequestsGet h.config.Org h.config.Repo (Issue.GetNumber (some issue))]⟩ := by
  obtain ⟨h1, h2, h3⟩ := hc
  simp only [fetchOf] at h4 h5
  simp [OnIssueComment, h1, h2, h3, h4, h5, h6]

theorem branch_fetchFailed (U : Char → Char) (h : EventHandler)
    (e : Option IssueCommentEvent) (issue : Issue) (err : GoError) (res : Response)
    (hc : Checks1to3 e issue) (h4 : (fetchOf h issue).err = some err)
    (h5 : (fetchOf h issue).res = some res) (h6 : res.StatusCode ≠ 404) :
    OnIssueComment U h e
      = ⟨.returned (some (Errorf "failed to get pull request: " err)),
         [Call.PullRequestsGet h.config.Org h.config.Repo (Issue.GetNumber (some issue))]⟩ := by
  obtain ⟨h1, h2, h3⟩ := hc
  simp only [fetchOf] at h4 h5
  simp [OnIssueComment, h1, h2, h3, h4, h5, h6]

theorem branch_notOpen (U : Char → Char) (h : EventHandler)
    (e : Option IssueCommentEvent) (issue : Issue)
    (hc : Checks1to3 e issue) (h4 : (fetchOf h issue).err = none)
    (h5 : PullRequest.GetState (fetchOf h issue).pr ≠ "open") :
    OnIssueComment U h e
      = ⟨.returned (some ErrPRNotOpen),
         [Call.PullRequestsGet h.config.Org h.config.Repo (Issue.GetNumber (some issue))]⟩ := by
  obtain ⟨h1, h2, h3⟩ := hc
  simp only [fetchOf] at h4 h5
  simp [OnIssueComment, h1, h2, h3, h4, h5]

theorem branch_fromUpstream (U : Char → Char) (h : EventHandler)
    (e : Option IssueCommentEvent) (issue : Issue)
    (hc : Checks1to3 e issue) (h4 : (fetchOf h issue).err = none)
    (h5 : PullRequest.GetState (fetchOf h issue).pr = "open")
    (h6 : forkRepoOf (fetchOf h issue).pr = h.config.Org ++ "/" ++ h.config.Repo) :
    OnIssueComment U h e
      = ⟨.returned (some ErrPRFromUpstream),
         [Call.PullRequestsGet h.config.Org h.config.Repo (Issue.GetNumber (some issue))]⟩ := by
  obtain ⟨h1, h2, h3⟩ := hc
  simp only [fetchOf, forkRepoOf] at h4 h5 h6
  simp [OnIssueComment, h1, h2, h3, h4, h5, h6, sprintf_slash]

theorem branch_nonWhitelisted (U : Char → Char) (h : EventHandler)
    (e : Option IssueCommentEvent) (issue : Issue)
    (hc : Checks1to3 e issue) (h4 : (fetchOf h issue).err = none)
    (h5 : PullRequest.GetState (fetchOf h issue).pr = "open")
    (h6 : forkRepoOf (fetchOf h issue).pr ≠ h.config.Org ++ "/" ++ h.config.Repo)
    (h7 : h.whitelist.Whitelisted (senderLoginOf e) = false) :
    OnIssueComment U h e
      = ⟨.returned (some ErrNonWhitelisted),
         [Call.PullRequestsGet h.config.Org h.config.Repo (Issue.GetNumber (some issue)),
          Call.Whitelisted (senderLoginOf e)]⟩ := by
  obtain ⟨h1, h2, h3⟩ := hc
  simp only [fetchOf, forkRepoOf, senderLoginOf] at h4 h5 h6 h7
  simp [OnIssueComment, h1, h2, h3, h4, h5, h6, h7, sprintf_slash]

theorem branch_commentTooLong (U : Char → Char) (h : EventHandler)
    (e : Option IssueCommentEvent) (issue : Issue) (pr : Option PullRequest)
    (hc : Checks1to7 h e issue pr) (h8 : len (commentBodyOf e) > MaxCommentLen) :
    OnIssueComment U h e
      = ⟨.returned (some ErrCommentTooLong),
         [Call.PullRequestsGet h.config.Org h.config.Repo (Issue.GetNumber (some issue)),
          Call.Whitelisted (senderLoginOf e)]⟩ := by
  obtain ⟨⟨h1, h2, h3⟩, h4, hpr, h5, h6, h7⟩ := hc
  subst hpr
  simp only [fetchOf, forkRepoOf, senderLoginOf, commentBodyOf] at h4 h5 h6 h7 h8
  simp [OnIssueComment, h1, h2, h3, h4, h5, h6, h7, h8, sprintf_slash]

theorem branch_noTrigger (U : Char → Char) (h : EventHandler)
    (e : Option IssueCommentEvent) (issue : Issue) (pr : Option PullRequest)
    (hc : Checks1to7 h e issue pr) (h8 : len (commentBodyOf e) ≤ MaxCommentLen)
    (h9 : FindCommentSHA h.config.TriggerPattern (commentBodyOf e) = "") :
    OnIssueComment U h e
      = ⟨.returned (some ErrNoTriggerPattern),
         [Call.PullRequestsGet h.config.Org h.config.Repo (Issue.GetNumber (some issue)),
          Call.Whitelisted (senderLoginOf e), Call.FindCommentSHA (commentBodyOf e)]⟩ := by
  obtain ⟨⟨h1, h2, h3⟩, h4, hpr, h5, h6, h7⟩ := hc
  subst hpr
  have h8' : ¬ len (commentBodyOf e) > MaxCommentLen := Nat.not_lt.mpr h8
  simp only [fetchOf, forkRepoOf, senderLoginOf, commentBodyOf] at h4 h5 h6 h7 h8' h9
  simp [OnIssueComment, h1, h2, h3, h4, h5, h6, h7, h8', h9, sprintf_slash]

theorem branch_mismatchedSHA (U : Char → Char) (h : EventHandler)
    (e : Option IssueCommentEvent) (issue : Issue) (pr : Option PullRequest)
    (hc : Checks1to9 h e issue pr)
    (h10 : ToLower U (FindCommentSHA h.config.TriggerPattern (commentBodyOf e)) ≠ headSHAOf pr) :
    OnIssueComment U h e
      = ⟨.returned (some ErrMismatchedSHA),
         [Call.PullRequestsGet h.config.Org h.config.Repo (Issue.GetNumber (some issue)),
          Call.Whitelisted (senderLoginOf e), Call.FindCommentSHA (commentBodyOf e)]⟩ := by
  obtain ⟨⟨⟨h1, h2, h3⟩, h4, hpr, h5, h6, h7⟩, h8, h9⟩ := hc
  subst hpr
  have h8' : ¬ len (commentBodyOf e) > MaxCommentLen := Nat.not_lt.mpr h8
  have h10' : ¬ ((headSHAOf (fetchOf h issue).pr)
      = ToLower U (FindCommentSHA h.config.TriggerPattern (commentBodyOf e))) :=
    fun hh => h10 hh.symm
  simp only [fetchOf, forkRepoOf, senderLoginOf, commentBodyOf, headSHAOf] at h4 h5 h6 h7 h8' h9 h10'
  simp [OnIssueComment, h1, h2, h3, h4, h5, h6, h7, h8', h9, h10', sprintf_slash]

/-! ### Consequences -/

theorem calls_of_checks (U : Char → Char) (h : EventHandler)
    (e : Option IssueCommentEvent) (issue : Issue) (pr : Option PullRequest)
    (hc : Checks1to10 U h e issue pr) :
    (OnIssueComment U h e).calls.countP Call.isRepush = 1 ∧
    (OnIssueComment U h e).result ∉ expectedErrors.map Result.returned ∧
    (OnIssueComment U h e).result ≠ Result.panicked := by
  rw [onIssueComment_of_checks U h e issue pr hc]
  simp only []
  split
  · simp [Call.isRepush, expectedErrors, Errorf, List.countP_cons]
  · split <;> simp [Call.isRepush, expectedErrors, Errorf, List.countP_cons]

/-- Either all ten checks pass, or the handler calls neither the repusher nor
the status API. -/
theorem checks_or_no_repush (U : Char → Char) (h : EventHandler)
    (e : Option IssueCommentEvent) :
    (∃ issue pr, Checks1to10 U h e issue pr) ∨
    (∀ c ∈ (OnIssueComment U h e).calls, c.isRepush = false ∧ c.isCreateStatus = false) := by
  cases h1 : IssueCommentEvent.GetIssue e with
  | none => right; rw [branch_noIssue U h e h1]; simp
  | some issue =>
    cases h2 : issue.IsPullRequest with
    | false => right; rw [branch_notPullRequest U h e issue h1 h2]; simp
    | true =>
      by_cases h3 : IssueCommentEvent.GetAction e = "created"
      swap
      · right; rw [branch_notCreation U h e issue h1 h2 h3]; simp
      have c3 : Checks1to3 e issue := ⟨h1, h2, h3⟩
      cases h4 : (fetchOf h issue).err with
      | some err =>
        right
        cases h5 : (fetchOf h issue).res with
        | none => rw [branch_fetchNoResponse U h e issue err c3 h4 h5]; simp [Call.isRepush, Call.isCreateStatus]
        | some res =>
          by_cases h6 : res.StatusCode = 404
          · rw [branch_notFound U h e issue err res c3 h4 h5 h6]; simp [Call.isRepush, Call.isCreateStatus]
          · rw [branch_fetchFailed U h e issue err res c3 h4 h5 h6]; simp [Call.isRepush, Call.isCreateStatus]
      | none =>
        by_cases h5 : PullRequest.GetState (fetchOf h issue).pr = "open"
        swap
        · right; rw [branch_notOpen U h e issue c3 h4 h5]; simp [Call.isRepush, Call.isCreateStatus]
        by_cases h6 : forkRepoOf (fetchOf h issue).pr = h.config.Org ++ "/" ++ h.config.Repo
        · right; rw [branch_fromUpstream U h e issue c3 h4 h5 h6]; simp [Call.isRepush, Call.isCreateStatus]
        cases h7 : h.whitelist.Whitelisted (senderLoginOf e) with
        | false =>
          right; rw [branch_nonWhitelisted U h e issue c3 h4 h5 h6 h7]
          simp [Call.isRepush, Call.isCreateStatus]
        | true =>
          have c7 : Checks1to7 h e issue (fetchOf h issue).pr := ⟨c3, h4, rfl, h5, h6, h7⟩
          by_cases h8 : len (commentBodyOf e) > MaxCommentLen
          · right; rw [branch_commentTooLong U h e issue _ c7 h8]
            simp [Call.isRepush, Call.isCreateStatus]
          by_cases h9 : FindCommentSHA h.config.TriggerPattern (commentBodyOf e) = ""
          · right; rw [branch_noTrigger U h e issue _ c7 (Nat.not_lt.mp h8) h9]
            simp [Call.isRepush, Call.isCreateStatus]
          have c9 : Checks1to9 h e issue (fetchOf h issue).pr := ⟨c7, Nat.not_lt.mp h8, h9⟩
          by_cases h10 : ToLower U (FindCommentSHA h.config.TriggerPattern (commentBodyOf e))
              = headSHAOf (fetchOf h issue).pr
          · exact Or.inl ⟨issue, _, c9, h10⟩
          · right; rw [branch_mismatchedSHA U h e issue _ c9 h10]
            simp [Call.isRepush, Call.isCreateStatus]

theorem countP_eq_zero_of_no_repush (cs : List Call)
    (hn : ∀ c ∈ cs, c.isRepush = false ∧ c.isCreateStatus = false) :
    cs.countP Call.isRepush = 0 := by
  rw [List.countP_eq_zero]
  intro c hc
  simp [(hn c hc).1]

/-! ### Bytes and characters -/

theorem utf8ByteSize_go_ge (l : List Char) : l.length ≤ String.utf8ByteSize.go l := by
  induction l with
  | nil => simp [String.utf8ByteSize.go]
  | cons c cs ih =>
    have hc : 1 ≤ c.utf8Size := Char.utf8Size_pos c
    simp only [String.utf8ByteSize.go, List.length_cons]
    omega

theorem utf8ByteSize_go_ascii (l : List Char) (ha : ∀ c ∈ l, c.toNat < 128) :
    String.utf8ByteSize.go l = l.length := by
  induction l with
  | nil => simp [String.utf8ByteSize.go]
  | cons c cs ih =>
    have hc : c.utf8Size = 1 := by
      have h1 : c.toNat < 128 := ha c (List.mem_cons_self _ _)
      have h2 : c.val ≤ UInt32.ofNatCore 127 (by decide) := by
        rw [UInt32.le_def, BitVec.le_def]
        show c.toNat ≤ 127
        omega
      simp only [Char.utf8Size]
      rw [if_pos h2]
    simp only [String.utf8ByteSize.go, List.length_cons, hc]
    rw [ih (fun c hc => ha c (List.mem_cons_of_mem _ hc))]

/-- The number of bytes of a string is at least its number of characters. -/
theorem length_le_len (s : String) : s.length ≤ len s := by
  cases s with
  | mk l => exact utf8ByteSize_go_ge l

/-- For a string of ASCII characters, bytes and characters coincide. -/
theorem len_eq_length_of_ascii (s : String) (ha : ∀ c ∈ s.data, c.toNat < 128) :
    len s = s.length := by
  cases s with
  | mk l => exact utf8ByteSize_go_ascii l ha

/-! ### Claims -/

/-- C1: `OnIssueComment` invokes `Repusher.Repush` only if all ten policy
checks passed (the event has an issue with pull-request links, the action is
"created", the fetch succeeded, the pull request is open and from a fork, the
sender is whitelisted, the body has at most 1024 bytes and so at most 1024
characters, the trigger pattern yields a non-empty SHA whose lower-casing is
the head SHA); when it returns
one of the ten rejection errors, or when the fetch answered an error, `Repush`
was not invoked; and `Repush` is invoked at most once per call. -/
theorem repush_only_after_all_checks (U : Char → Char) (h : EventHandler)
    (e : Option IssueCommentEvent) :
    ((∃ c ∈ (OnIssueComment U h e).calls, c.isRepush = true) →
      (∃ issue pr, Checks1to10 U h e issue pr) ∧ (commentBodyOf e).length ≤ 1024) ∧
    (∀ err ∈ expectedErrors, (OnIssueComment U h e).result = Result.returned err →
      ∀ c ∈ (OnIssueComment U h e).calls, c.isRepush = false) ∧
    (∀ issue, IssueCommentEvent.GetIssue e = some issue → (fetchOf h issue).err ≠ none →
      ∀ c ∈ (OnIssueComment U h e).calls, c.isRepush = false) ∧
    (OnIssueComment U h e).calls.countP Call.isRepush ≤ 1 := by
  rcases checks_or_no_repush U h e with ⟨issue, pr, hc⟩ | hn
  · obtain ⟨hcount, hres, -⟩ := calls_of_checks U h e issue pr hc
    refine ⟨fun _ => ⟨⟨issue, pr, hc⟩, Nat.le_trans (length_le_len _) hc.notTooLong⟩, ?_, ?_,
      hcount.le⟩
    · intro err herr hret
      exact absurd (List.mem_map.mpr ⟨err, herr, hret.symm⟩) hres
    · intro issue' hI hE
      have : issue' = issue := by
        have := hc.hasIssue
        rw [hI] at this
        exact Option.some.inj this
      subst this
      exact absurd hc.fetched hE
  · refine ⟨?_, fun _ _ _ c hc => (hn c hc).1, fun _ _ _ c hc => (hn c hc).1, ?_⟩
    · rintro ⟨c, hc, hr⟩
      rw [(hn c hc).1] at hr
      exact absurd hr (by decide)
    · rw [countP_eq_zero_of_no_repush _ hn]
      exact Nat.zero_le 1

theorem test_checks_base :
    Checks1to10 id testHandler (testEvent 3 "whitelisted" "/ci authorize aaaaaaaa")
      testIssue3 testPR3 :=
  ⟨⟨⟨⟨by decide, by decide, by decide⟩, by decide, by decide, by decide, by decide, by decide⟩,
    by decide, by decide⟩, by decide⟩

/-- The successful event of the test passes the ten checks whatever the two
mocked writes answer. -/
theorem test_checks (ra sa : error) :
    Checks1to10 id (testHandlerWith ra sa) (testEvent 3 "whitelisted" "/ci authorize aaaaaaaa")
      testIssue3 testPR3 :=
  have b := test_checks_base
  ⟨⟨⟨⟨b.hasIssue, b.isPullRequest, b.created⟩, b.fetched, b.fetchedPR, b.isOpen, b.fromFork,
    b.whitelisted⟩, b.notTooLong, b.hasTrigger⟩, b.shaMatches⟩

/-- Witness of C1: in the successful case of the test `Repush` is called, and
the ten checks hold. -/
theorem repush_only_after_all_checks_witness :
    (∃ c ∈ (OnIssueComment id testHandler
        (testEvent 3 "whitelisted" "/ci authorize aaaaaaaa")).calls, c.isRepush = true) ∧
    ((∃ issue pr, Checks1to10 id testHandler
        (testEvent 3 "whitelisted" "/ci authorize aaaaaaaa") issue pr) ∧
      (commentBodyOf (testEvent 3 "whitelisted" "/ci authorize aaaaaaaa")).length ≤ 1024) :=
  ⟨by decide,
   (repush_only_after_all_checks id testHandler
      (testEvent 3 "whitelisted" "/ci authorize aaaaaaaa")).1 (by decide)⟩

/-- C2: the outcome of `OnIssueComment` is decided by the first failing check,
in the order of the pipeline: no issue, then no pull-request links, then an
action other than "created", then a fetch answered with 404, then a state other
than "open", then a head repository equal to `Org/Repo`, then a sender who is
not whitelisted, then a body over `MaxCommentLen`, then no trigger SHA, then a
SHA that differs from the head SHA.  Each rejection comes with exactly the
calls of the checks before it: nothing for checks 1 to 3, the fetch alone for
checks 4 to 6, fetch and whitelist query for 7 and 8, and the pattern match
after them for 9 and 10. -/
theorem first_failing_check_decides (U : Char → Char) (h : EventHandler)
    (e : Option IssueCommentEvent) :
    (IssueCommentEvent.GetIssue e = none →
      OnIssueComment U h e = ⟨Result.returned (some ErrNoIssue), []⟩) ∧
    (∀ issue, IssueCommentEvent.GetIssue e = some issue →
      (issue.IsPullRequest = false →
        OnIssueComment U h e = ⟨Result.returned (some ErrNotPullRequest), []⟩) ∧
      (issue.IsPullRequest = true → IssueCommentEvent.GetAction e ≠ "created" →
        OnIssueComment U h e = ⟨Result.returned (some ErrNotCreation), []⟩) ∧
      (Checks1to3 e issue →
        (∀ err res, (fetchOf h issue).err = some err → (fetchOf h issue).res = some res →
          res.StatusCode = 404 →
          OnIssueComment U h e = ⟨Result.returned (some ErrPRNotFound),
            [Call.PullRequestsGet h.config.Org h.config.Repo (Issue.GetNumber (some issue))]⟩) ∧
        ((fetchOf h issue).err = none →
          (PullRequest.GetState (fetchOf h issue).pr ≠ "open" →
            OnIssueComment U h e = ⟨Result.returned (some ErrPRNotOpen),
              [Call.PullRequestsGet h.config.Org h.config.Repo (Issue.GetNumber (some issue))]⟩) ∧
          (PullRequest.GetState (fetchOf h issue).pr = "open" →
            (forkRepoOf (fetchOf h issue).pr = h.config.Org ++ "/" ++ h.config.Repo →
              OnIssueComment U h e = ⟨Result.returned (some ErrPRFromUpstream),
                [Call.PullRequestsGet h.config.Org h.config.Repo (Issue.GetNumber (some issue))]⟩) ∧
            (forkRepoOf (fetchOf h issue).pr ≠ h.config.Org ++ "/" ++ h.config.Repo →
              h.whitelist.Whitelisted (senderLoginOf e) = false →
              OnIssueComment U h e = ⟨Result.returned (some ErrNonWhitelisted),
                [Call.PullRequestsGet h.config.Org h.config.Repo (Issue.GetNumber (some issue)),
                 Call.Whitelisted (senderLoginOf e)]⟩))) ∧
        (∀ pr, Checks1to7 h e issue pr →
          (len (commentBodyOf e) > MaxCommentLen →
            OnIssueComment U h e = ⟨Result.returned (some ErrCommentTooLong),
              [Call.PullRequestsGet h.config.Org h.config.Repo (Issue.GetNumber (some issue)),
               Call.Whitelisted (senderLoginOf e)]⟩) ∧
          (len (commentBodyOf e) ≤ MaxCommentLen →
            (FindCommentSHA h.config.TriggerPattern (commentBodyOf e) = "" →
              OnIssueComment U h e = ⟨Result.returned (some ErrNoTriggerPattern),
                [Call.PullRequestsGet h.config.Org h.config.Repo (Issue.GetNumber (some issue)),
                 Call.Whitelisted (senderLoginOf e), Call.FindCommentSHA (commentBodyOf e)]⟩) ∧
            (FindCommentSHA h.config.TriggerPattern (commentBodyOf e) ≠ "" →
              ToLower U (FindCommentSHA h.config.TriggerPattern (commentBodyOf e)) ≠ headSHAOf pr →
              OnIssueComment U h e = ⟨Result.returned (some ErrMismatchedSHA),
                [Call.PullRequestsGet h.config.Org h.config.Repo (Issue.GetNumber (some issue)),
                 Call.Whitelisted (senderLoginOf e), Call.FindCommentSHA (commentBodyOf e)]⟩))))) := by
  refine ⟨branch_noIssue U h e, fun issue h1 => ⟨branch_notPullRequest U h e issue h1,
    branch_notCreation U h e issue h1, fun c3 => ⟨?_, ?_, ?_⟩⟩⟩
  · intro err res h4 h5 h6
    exact branch_notFound U h e issue err res c3 h4 h5 h6
  · intro h4
    exact ⟨branch_notOpen U h e issue c3 h4, fun h5 =>
      ⟨branch_fromUpstream U h e issue c3 h4 h5, branch_nonWhitelisted U h e issue c3 h4 h5⟩⟩
  · intro pr c7
    exact ⟨branch_commentTooLong U h e issue pr c7, fun h8 =>
      ⟨branch_noTrigger U h e issue pr c7 h8, fun h9 h10 =>
        branch_mismatchedSHA U h e issue pr ⟨c7, h8, h9⟩ h10⟩⟩

/-- Witness of C2: a comment on the closed pull request 1 of the test, from a
sender who is not whitelisted and with a body of 1025 bytes, violates checks 5,
7 and 8 at once; it is rejected with `ErrPRNotOpen`, after the fetch alone. -/
theorem first_failing_check_decides_witness :
    PullRequest.GetState (fetchOf testHandler ⟨some 1, some ⟨none⟩⟩).pr ≠ "open" ∧
    testHandler.whitelist.Whitelisted "not-whitelisted" = false ∧
    len (String.mk (List.replicate 1025 'a')) > MaxCommentLen ∧
    OnIssueComment id testHandler
        (testEvent 1 "not-whitelisted" (String.mk (List.replicate 1025 'a')))
      = ⟨Result.returned (some ErrPRNotOpen),
         [Call.PullRequestsGet "ethereum-optimism" "optimism" 1]⟩ :=
  ⟨by decide, by decide, by decide,
   (((first_failing_check_decides id testHandler
      (testEvent 1 "not-whitelisted" (String.mk (List.replicate 1025 'a')))).2
        ⟨some 1, some ⟨none⟩⟩ rfl).2.2 ⟨rfl, rfl, by decide⟩).2.1 (by decide) |>.1 (by decide)⟩

/-- C3: when all ten checks pass and both collaborators succeed,
`OnIssueComment` fetches the pull request, queries the whitelist, matches the
pattern, calls `Repush` once with (head repo full name, head ref,
`FormatRepushBranch` of the two, head SHA), then creates a commit status on
`Org/Repo` at the head SHA with context `StatusName`, state "success" and
description "Successfully repushed (head ref) at (head SHA).", and returns nil. -/
theorem success_repushes_then_posts_status (U : Char → Char) (h : EventHandler)
    (e : Option IssueCommentEvent) (issue : Issue) (pr : Option PullRequest)
    (hc : Checks1to10 U h e issue pr)
    (hr : h.repusher.Repush (forkRepoOf pr) (srcBranchOf pr)
      (FormatRepushBranch (forkRepoOf pr) (srcBranchOf pr)) (headSHAOf pr) = none)
    (hs : h.gh.RepositoriesCreateStatus h.config.Org h.config.Repo (headSHAOf pr)
      ⟨some h.config.StatusName, some "success",
       some ("Successfully repushed " ++ srcBranchOf pr ++ " at " ++ headSHAOf pr ++ ".")⟩ = none) :
    OnIssueComment U h e = ⟨Result.returned none,
      [Call.PullRequestsGet h.config.Org h.config.Repo (Issue.GetNumber (some issue)),
       Call.Whitelisted (senderLoginOf e),
       Call.FindCommentSHA (commentBodyOf e),
       Call.Repush (forkRepoOf pr) (srcBranchOf pr)
         (FormatRepushBranch (forkRepoOf pr) (srcBranchOf pr)) (headSHAOf pr),
       Call.CreateStatus h.config.Org h.config.Repo (headSHAOf pr)
         ⟨some h.config.StatusName, some "success",
          some ("Successfully repushed " ++ srcBranchOf pr ++ " at " ++ headSHAOf pr ++ ".")⟩]⟩ := by
  rw [onIssueComment_of_checks U h e issue pr hc]
  simp only [successStatus, hr, hs]
  rfl

/-- Witness of C3: the successful case of the test.  Pull request 3 with the
comment "/ci authorize aaaaaaaa" is repushed to the branch
"external-fork/3593dababb1188e36163c6b679d9e382371b697de298374183ac5457082c334d". -/
theorem success_repushes_then_posts_status_witness :
    Checks1to10 id testHandler (testEvent 3 "whitelisted" "/ci authorize aaaaaaaa")
      testIssue3 testPR3 ∧
    OnIssueComment id testHandler (testEvent 3 "whitelisted" "/ci authorize aaaaaaaa")
      = ⟨Result.returned none,
         [Call.PullRequestsGet "ethereum-optimism" "optimism" 3,
          Call.Whitelisted "whitelisted",
          Call.FindCommentSHA "/ci authorize aaaaaaaa",
          Call.Repush "not-ethereum-optimism/optimism" "feat/super-branch"
            "external-fork/3593dababb1188e36163c6b679d9e382371b697de298374183ac5457082c334d"
            "aaaaaaaa",
          Call.CreateStatus "ethereum-optimism" "optimism" "aaaaaaaa"
            ⟨some "", some "success",
             some "Successfully repushed feat/super-branch at aaaaaaaa."⟩]⟩ :=
  ⟨test_checks none none,
   (success_repushes_then_posts_status id testHandler
      (testEvent 3 "whitelisted" "/ci authorize aaaaaaaa") testIssue3 testPR3
      (test_checks none none) rfl rfl).trans (by decide)⟩

/-- C4: `ServeOnIssueComment` returns nil exactly when `OnIssueComment`
returned nil or one of the ten rejection errors (`ErrNoIssue`,
`ErrNotPullRequest`, `ErrNotCreation`, `ErrPRNotFound`, `ErrPRNotOpen`,
`ErrPRFromUpstream`, `ErrNonWhitelisted`, `ErrCommentTooLong`,
`ErrNoTriggerPattern`, `ErrMismatchedSHA`); any other error that
`OnIssueComment` returns is returned unchanged, and it is not nil. -/
theorem serve_nil_iff_nil_or_rejection (U : Char → Char) (h : EventHandler)
    (e : Option IssueCommentEvent) :
    ((ServeOnIssueComment U h e).result = Result.returned none ↔
      (OnIssueComment U h e).result = Result.returned none ∨
      ∃ r ∈ [ErrNoIssue, ErrNotPullRequest, ErrNotCreation, ErrPRNotFound, ErrPRNotOpen,
             ErrPRFromUpstream, ErrNonWhitelisted, ErrCommentTooLong, ErrNoTriggerPattern,
             ErrMismatchedSHA],
        (OnIssueComment U h e).result = Result.returned (some r)) ∧
    (∀ err, (OnIssueComment U h e).result = Result.returned err →
      err ≠ none →
      (∀ r ∈ [ErrNoIssue, ErrNotPullRequest, ErrNotCreation, ErrPRNotFound, ErrPRNotOpen,
              ErrPRFromUpstream, ErrNonWhitelisted, ErrCommentTooLong, ErrNoTriggerPattern,
              ErrMismatchedSHA], err ≠ some r) →
      (ServeOnIssueComment U h e).result = Result.returned err ∧
      (ServeOnIssueComment U h e).result ≠ Result.returned none) := by
  unfold ServeOnIssueComment
  cases hres : (OnIssueComment U h e).result with
  | panicked => simp [hres]
  | returned err =>
    cases err with
    | none => simp [hres, expectedErrors]
    | some x =>
      cases x <;> simp [hres, expectedErrors]

/-- Witness of C4: a comment on the closed pull request 1 of the test is
rejected by `OnIssueComment` with `ErrPRNotOpen`, and served with nil. -/
theorem serve_nil_iff_nil_or_rejection_witness :
    (OnIssueComment id testHandler (testEvent 1 "whitelisted" "hello")).result
      = Result.returned (some ErrPRNotOpen) ∧
    (ServeOnIssueComment id testHandler (testEvent 1 "whitelisted" "hello")).result
      = Result.returned none :=
  ⟨by decide,
   (serve_nil_iff_nil_or_rejection id testHandler (testEvent 1 "whitelisted" "hello")).1.mpr
     (Or.inr ⟨ErrPRNotOpen, by decide, by decide⟩)⟩

/-- C5: a failure of the mirror operation or of the status publish is a failed
request, not a rejection.  With the ten checks passed, for every error `err`
that `Repush` returns (a rejection sentinel included) `OnIssueComment` returns
the new error "failed to repush: ..." wrapping `err`, which is none of the ten
rejection errors, does not call `CreateStatus`, and `ServeOnIssueComment`
returns that same non-nil error; and when `Repush` succeeds and `CreateStatus`
returns `err`, both return the new error "failed to create check run: ..."
wrapping `err`, again none of the ten. -/
theorem collaborator_failure_is_not_rejection (U : Char → Char) (h : EventHandler)
    (e : Option IssueCommentEvent) (issue : Issue) (pr : Option PullRequest)
    (hc : Checks1to10 U h e issue pr) :
    (∀ err, h.repusher.Repush (forkRepoOf pr) (srcBranchOf pr)
        (FormatRepushBranch (forkRepoOf pr) (srcBranchOf pr)) (headSHAOf pr) = some err →
      (OnIssueComment U h e).result = Result.returned (some (Errorf "failed to repush: " err)) ∧
      some (Errorf "failed to repush: " err) ∉ expectedErrors ∧
      (∀ c ∈ (OnIssueComment U h e).calls, c.isCreateStatus = false) ∧
      (ServeOnIssueComment U h e).result
        = Result.returned (some (Errorf "failed to repush: " err))) ∧
    (h.repusher.Repush (forkRepoOf pr) (srcBranchOf pr)
        (FormatRepushBranch (forkRepoOf pr) (srcBranchOf pr)) (headSHAOf pr) = none →
      ∀ err, h.gh.RepositoriesCreateStatus h.config.Org h.config.Repo (headSHAOf pr)
          (successStatus h pr) = some err →
        (OnIssueComment U h e).result
          = Result.returned (some (Errorf "failed to create check run: " err)) ∧
        some (Errorf "failed to create check run: " err) ∉ expectedErrors ∧
        (ServeOnIssueComment U h e).result
          = Result.returned (some (Errorf "failed to create check run: " err))) := by
  constructor
  · intro err hr
    have ho := onIssueComment_of_checks U h e issue pr hc
    simp only [hr] at ho
    simp [ServeOnIssueComment, ho, Errorf, expectedErrors, Call.isCreateStatus]
  · intro hr err hs
    have ho := onIssueComment_of_checks U h e issue pr hc
    simp only [hr, hs] at ho
    simp [ServeOnIssueComment, ho, Errorf, expectedErrors]

/-- Witness of C5: in the successful case of the test, a repusher that fails
with the sentinel `ErrNoIssue` itself makes both functions return the wrapping
error, not nil. -/
theorem collaborator_failure_is_not_rejection_witness :
    (OnIssueComment id (testHandlerWith (some ErrNoIssue) none)
        (testEvent 3 "whitelisted" "/ci authorize aaaaaaaa")).result
      = Result.returned (some (GoError.wrapError "failed to repush: no issue found" ErrNoIssue)) ∧
    (ServeOnIssueComment id (testHandlerWith (some ErrNoIssue) none)
        (testEvent 3 "whitelisted" "/ci authorize aaaaaaaa")).result
      = Result.returned (some (GoError.wrapError "failed to repush: no issue found" ErrNoIssue)) :=
  have w := (collaborator_failure_is_not_rejection id (testHandlerWith (some ErrNoIssue) none)
    (testEvent 3 "whitelisted" "/ci authorize aaaaaaaa") testIssue3 testPR3
    (test_checks (some ErrNoIssue) none)).1 ErrNoIssue rfl
  ⟨w.1.trans (by decide), w.2.2.2.trans (by decide)⟩

/-- C6, at the failing input: the event passes checks 1 to 3 and the fetch
fails with no response object; `res.StatusCode` dereferences the nil response
and the handler panics instead of returning a transport error. -/
theorem fetch_without_response_panics :
    (fetchOf offlineHandler testIssue3).err = some (GoError.foreign "dial tcp: connection refused") ∧
    (fetchOf offlineHandler testIssue3).res = none ∧
    OnIssueComment id offlineHandler (testEvent 3 "whitelisted" "/ci authorize aaaaaaaa")
      = ⟨Result.panicked, [Call.PullRequestsGet "ethereum-optimism" "optimism" 3]⟩ := by
  decide

/-- With checks 1 to 8 passed the handler does not answer `ErrCommentTooLong`. -/
theorem not_tooLong_of_short (U : Char → Char) (h : EventHandler)
    (e : Option IssueCommentEvent) (issue : Issue) (pr : Option PullRequest)
    (hc : Checks1to7 h e issue pr) (h8 : len (commentBodyOf e) ≤ MaxCommentLen) :
    (OnIssueComment U h e).result ≠ Result.returned (some ErrCommentTooLong) := by
  by_cases h9 : FindCommentSHA h.config.TriggerPattern (commentBodyOf e) = ""
  · rw [branch_noTrigger U h e issue pr hc h8 h9]; simp
  by_cases h10 : ToLower U (FindCommentSHA h.config.TriggerPattern (commentBodyOf e)) = headSHAOf pr
  · obtain ⟨-, hres, -⟩ := calls_of_checks U h e issue pr ⟨⟨hc, h8, h9⟩, h10⟩
    intro hh
    apply hres
    rw [hh]
    simp [expectedErrors]
  · rw [branch_mismatchedSHA U h e issue pr ⟨hc, h8, h9⟩ h10]; simp

/-- C7 as stated fails: the body `accentedBody` has exactly 1024 characters
(2048 bytes); on the whitelisted event of the test, which passes checks 1 to 7,
it is rejected with `ErrCommentTooLong`. -/
theorem comment_length_in_characters_counterexample :
    Checks1to7 testHandler (testEvent 3 "whitelisted" accentedBody) testIssue3 testPR3 ∧
    accentedBody.length = 1024 ∧
    (OnIssueComment id testHandler (testEvent 3 "whitelisted" accentedBody)).result
      = Result.returned (some ErrCommentTooLong) := by
  have hc : Checks1to7 testHandler (testEvent 3 "whitelisted" accentedBody) testIssue3 testPR3 :=
    ⟨⟨by decide, by decide, by decide⟩, by decide, by decide, by decide, by decide, by decide⟩
  refine ⟨hc, by decide, ?_⟩
  rw [branch_commentTooLong id testHandler _ testIssue3 testPR3 hc (by decide)]

/-- C7, amended: given an event that passes checks 1 to 7, `OnIssueComment`
returns `ErrCommentTooLong` if and only if the UTF-8 encoding of the comment
body is longer than 1024 bytes; for a body of ASCII characters only, if and
only if the body is longer than 1024 characters. -/
theorem comment_too_long_iff_bytes (U : Char → Char) (h : EventHandler)
    (e : Option IssueCommentEvent) (issue : Issue) (pr : Option PullRequest)
    (hc : Checks1to7 h e issue pr) :
    ((OnIssueComment U h e).result = Result.returned (some ErrCommentTooLong) ↔
      1024 < len (commentBodyOf e)) ∧
    ((∀ c ∈ (commentBodyOf e).data, c.toNat < 128) →
      ((OnIssueComment U h e).result = Result.returned (some ErrCommentTooLong) ↔
        1024 < (commentBodyOf e).length)) := by
  have key : (OnIssueComment U h e).result = Result.returned (some ErrCommentTooLong) ↔
      1024 < len (commentBodyOf e) := by
    constructor
    · intro hres
      by_contra hlen
      exact not_tooLong_of_short U h e issue pr hc (Nat.not_lt.mp hlen) hres
    · intro hlen
      rw [branch_commentTooLong U h e issue pr hc hlen]
  refine ⟨key, fun ha => ?_⟩
  rw [key, len_eq_length_of_ascii _ ha]

/-- Witness of C7: the test's body of 1025 times "a" is rejected with
`ErrCommentTooLong`, a body of 1024 times "a" is not. -/
theorem comment_too_long_iff_bytes_witness :
    (OnIssueComment id testHandler
        (testEvent 3 "whitelisted" (String.mk (List.replicate 1025 'a')))).result
      = Result.returned (some ErrCommentTooLong) ∧
    (OnIssueComment id testHandler
        (testEvent 3 "whitelisted" (String.mk (List.replicate 1024 'a')))).result
      ≠ Result.returned (some ErrCommentTooLong) :=
  ⟨(comment_too_long_iff_bytes id testHandler
      (testEvent 3 "whitelisted" (String.mk (List.replicate 1025 'a'))) testIssue3 testPR3
      ⟨⟨by decide, by decide, by decide⟩, by decide, by decide, by decide, by decide,
        by decide⟩).1.mpr (by decide),
   fun hh => absurd ((comment_too_long_iff_bytes id testHandler
      (testEvent 3 "whitelisted" (String.mk (List.replicate 1024 'a'))) testIssue3 testPR3
      ⟨⟨by decide, by decide, by decide⟩, by decide, by decide, by decide, by decide,
        by decide⟩).1.mp hh) (by decide)⟩

/-- C8: given an event that passes checks 1 to 9, `OnIssueComment` returns
`ErrMismatchedSHA` if and only if the lower-cased SHA of the comment differs
from the head SHA of the pull request, taken as returned; and the SHA passed
to `Repush` and to the commit status is the head SHA. -/
theorem mismatched_sha_iff (U : Char → Char) (h : EventHandler)
    (e : Option IssueCommentEvent) (issue : Issue) (pr : Option PullRequest)
    (hc : Checks1to9 h e issue pr) :
    ((OnIssueComment U h e).result = Result.returned (some ErrMismatchedSHA) ↔
      ToLower U (FindCommentSHA h.config.TriggerPattern (commentBodyOf e)) ≠ headSHAOf pr) ∧
    (∀ a b c d, Call.Repush a b c d ∈ (OnIssueComment U h e).calls → d = headSHAOf pr) ∧
    (∀ o r ref st, Call.CreateStatus o r ref st ∈ (OnIssueComment U h e).calls →
      ref = headSHAOf pr) := by
  by_cases h10 : ToLower U (FindCommentSHA h.config.TriggerPattern (commentBodyOf e)) = headSHAOf pr
  · have ho := onIssueComment_of_checks U h e issue pr ⟨hc, h10⟩
    simp only [] at ho
    rw [ho]
    split
    · simp [h10, Errorf]
    · split <;> simp [h10, Errorf] <;> intro _ _ ref _ _ _ h3 _ <;> exact h3
  · rw [branch_mismatchedSHA U h e issue pr hc h10]
    simp [h10]

/-- Witness of C8: the test's comment "/ci authorize 12345678" against the
head SHA "aaaaaaaa" is rejected with `ErrMismatchedSHA`; with a pattern that
admits upper case, the comment "AAAAAAAA" matches the head SHA "aaaaaaaa". -/
theorem mismatched_sha_iff_witness :
    (OnIssueComment id testHandler (testEvent 3 "whitelisted" "/ci authorize 12345678")).result
      = Result.returned (some ErrMismatchedSHA) ∧
    (OnIssueComment id anyCaseHandler (testEvent 3 "whitelisted" "AAAAAAAA")).result
      ≠ Result.returned (some ErrMismatchedSHA) :=
  ⟨(mismatched_sha_iff id testHandler (testEvent 3 "whitelisted" "/ci authorize 12345678")
      testIssue3 testPR3
      ⟨⟨⟨by decide, by decide, by decide⟩, by decide, by decide, by decide, by decide,
        by decide⟩, by decide, by decide⟩).1.mpr (by decide),
   fun hh => (mismatched_sha_iff id anyCaseHandler (testEvent 3 "whitelisted" "AAAAAAAA")
      testIssue3 testPR3
      ⟨⟨⟨by decide, by decide, by decide⟩, by decide, by decide, by decide, by decide,
        by decide⟩, by decide, by decide⟩).1.mp hh (by decide)⟩

/-! ### The destination branch -/

theorem sum256_length (msg : List Nat) : (Sum256 msg).length = 32 := by
  simp [Sum256, be32]

theorem sum256_lt (msg : List Nat) : ∀ b ∈ Sum256 msg, b < 256 := by
  intro b hb
  simp only [Sum256, be32, List.mem_append, List.mem_cons, List.mem_singleton,
    List.not_mem_nil, or_false] at hb
  rcases hb with ((((((hb | hb) | hb) | hb) | hb) | hb) | hb) | hb <;>
    rcases hb with hb | hb | hb | hb <;> subst hb <;> exact Nat.mod_lt _ (by decide)

theorem fmtByteHex_eq_digits : ∀ b < 256,
    fmtByteHex b = [Nat.digitChar (b / 16), Nat.digitChar (b % 16)] := by
  decide

theorem fmtByteHex_mem : ∀ b < 256, ∀ c ∈ fmtByteHex b, c ∈ "0123456789abcdef".data := by
  decide

theorem fmtByteHex_length (b : Nat) : (fmtByteHex b).length = 2 := rfl

theorem fmtSbx_length (bs : List Nat) : (fmtSbx bs).length = 2 * bs.length := by
  induction bs with
  | nil => rfl
  | cons b bs ih =>
    simp only [fmtSbx, List.flatMap_cons, List.length_append, List.length_cons] at ih ⊢
    rw [ih, fmtByteHex_length]
    omega

theorem fmtSbx_eq_hexEncode (bs : List Nat) (hb : ∀ b ∈ bs, b < 256) :
    fmtSbx bs = (hexEncode bs).data := by
  induction bs with
  | nil => rfl
  | cons b bs ih =>
    simp only [fmtSbx, hexEncode, List.flatMap_cons] at ih ⊢
    rw [ih (fun x hx => hb x (List.mem_cons_of_mem _ hx)),
      fmtByteHex_eq_digits b (hb b (List.mem_cons_self _ _))]

theorem fmtSbx_mem (bs : List Nat) (hb : ∀ b ∈ bs, b < 256) :
    ∀ c ∈ fmtSbx bs, c ∈ "0123456789abcdef".data := by
  intro c hc
  simp only [fmtSbx, List.mem_flatMap] at hc
  obtain ⟨b, hbm, hcb⟩ := hc
  exact fmtByteHex_mem b (hb b hbm) c hcb

theorem sprintf_hex (b : List Nat) :
    Sprintf "external-fork/%x" [FmtArg.bytes b] = String.mk ("external-fork/".data ++ fmtSbx b) := by
  apply String.ext
  simp [Sprintf, sprintfChars]

theorem formatRepushBranch_data (forkRepo srcBranch : String) :
    (FormatRepushBranch forkRepo srcBranch).data
      = "external-fork/".data ++ fmtSbx (Sum256 (utf8Bytes (forkRepo ++ "/" ++ srcBranch))) := by
  simp only [FormatRepushBranch, sprintf_slash, sprintf_hex]

/-- C9: for every `forkRepo` and `srcBranch`, `FormatRepushBranch` is
"external-fork/" followed by the lower-case hexadecimal encoding of the
SHA-256 of the bytes of `forkRepo + "/" + srcBranch`; with the three vectors
of `TestFormatRepushBranch`. -/
theorem formatRepushBranch_spec :
    (∀ forkRepo srcBranch : String,
      FormatRepushBranch forkRepo srcBranch
        = "external-fork/" ++ hexEncode (Sum256 (utf8Bytes (forkRepo ++ "/" ++ srcBranch)))) ∧
    FormatRepushBranch "foo/optimism" "master"
      = "external-fork/0aeca8bc7690cfe752f8b495980e5606e84b607a445e8a53552072566ddd7478" ∧
    FormatRepushBranch "foo/otherrepo" "master"
      = "external-fork/10c55da1bd272ed42ca341d89501741aa027d56ae6be51bca669bed4372a00cc" ∧
    FormatRepushBranch "foouser/optimism" "branch/with/slashes"
      = "external-fork/d884bc21bd02f15d28349e1dfdd0dd5ad04a875084e1b77d931379a5e8319cc4" := by
  refine ⟨fun forkRepo srcBranch => ?_, by decide, by decide, by decide⟩
  apply String.ext
  rw [formatRepushBranch_data, String.data_append, fmtSbx_eq_hexEncode _ (sum256_lt _)]

/-- C10: `FormatRepushBranch` has a fixed output shape: for every `forkRepo`
and `srcBranch` the result is the 14-character text "external-fork/" followed
by exactly 64 characters, each in `0-9a-f` (78 characters in all), and equal
arguments give equal results. -/
theorem formatRepushBranch_shape (forkRepo srcBranch : String) :
    (∃ hex : List Char,
      FormatRepushBranch forkRepo srcBranch = "external-fork/" ++ String.mk hex ∧
      hex.length = 64 ∧ ∀ c ∈ hex, c ∈ "0123456789abcdef".data) ∧
    "external-fork/".length = 14 ∧
    (FormatRepushBranch forkRepo srcBranch).length = 78 ∧
    (∀ forkRepo' srcBranch' : String, forkRepo' = forkRepo → srcBranch' = srcBranch →
      FormatRepushBranch forkRepo' srcBranch' = FormatRepushBranch forkRepo srcBranch) := by
  refine ⟨⟨fmtSbx (Sum256 (utf8Bytes (forkRepo ++ "/" ++ srcBranch))), ?_, ?_, ?_⟩, rfl, ?_, ?_⟩
  · apply String.ext
    rw [formatRepushBranch_data, String.data_append]
  · rw [fmtSbx_length, sum256_length]
  · exact fmtSbx_mem _ (sum256_lt _)
  · rw [String.length, formatRepushBranch_data, List.length_append, fmtSbx_length, sum256_length]
    rfl
  · intro forkRepo' srcBranch' h1 h2
    rw [h1, h2]

/-- Witness of C10: the shape for two empty arguments, and for a branch name
with slashes fed twice. -/
theorem formatRepushBranch_shape_witness :
    (FormatRepushBranch "" "").length = 78 ∧
    FormatRepushBranch "foouser/optimism" "branch/with/slashes"
      = FormatRepushBranch "foouser/optimism" "branch/with/slashes" :=
  ⟨(formatRepushBranch_shape "" "").2.2.1,
   (formatRepushBranch_shape "foouser/optimism" "branch/with/slashes").2.2.2
     "foouser/optimism" "branch/with/slashes" rfl rfl⟩

/-! ### The trigger pattern -/

theorem run_lits (lit : List Char) : ∀ (cur : Cursor) (caps : Caps),
    (Re.lits lit).run cur caps =
      match stripLeading lit cur.rest with
      | some r => [(⟨lit.reverse ++ cur.before, r⟩, caps)]
      | none => [] := by
  induction lit with
  | nil => intro cur caps; simp [Re.lits, Re.run, stripLeading]
  | cons c cs ih =>
    intro cur caps
    obtain ⟨before, rest⟩ := cur
    cases rest with
    | nil => simp [Re.lits, Re.run, stripLeading]
    | cons x t =>
      by_cases hx : x = c
      · subst hx
        simp [Re.lits, Re.run, stripLeading, ih]
      · have hx' : ¬ c = x := fun h => hx h.symm
        simp [Re.lits, Re.run, stripLeading, hx, hx']

theorem plusLoop_cls (p : Char → Bool) : ∀ (rest : List Char) (fuel : Nat) (before : List Char)
    (caps : Caps), rest.length < fuel →
    plusLoop (fun c k => (Re.cls p).run c k) fuel ⟨before, rest⟩ caps
      = (greedyClass p before rest).map fun c => (c, caps) := by
  intro rest
  induction rest with
  | nil =>
    intro fuel before caps hf
    cases fuel with
    | zero => omega
    | succ n => simp [plusLoop, Re.run, greedyClass]
  | cons x t ih =>
    intro fuel before caps hf
    cases fuel with
    | zero => omega
    | succ n =>
      have hn : t.length < n := by simp at hf; omega
      by_cases hp : p x = true
      · have hstep : (Re.cls p).run ⟨before, x :: t⟩ caps = [(⟨x :: before, t⟩, caps)] := by
          simp [Re.run, hp]
        show ((Re.cls p).run ⟨before, x :: t⟩ caps).flatMap _ = _
        rw [hstep]
        simp only [List.flatMap_cons, List.flatMap_nil, List.append_nil, List.length_cons,
          Nat.lt_succ_self, if_true]
        rw [ih n (x :: before) caps hn]
        simp [greedyClass, hp]
      · have hstep : (Re.cls p).run ⟨before, x :: t⟩ caps = [] := by
          simp [Re.run, hp]
        show ((Re.cls p).run ⟨before, x :: t⟩ caps).flatMap _ = _
        rw [hstep]
        simp [greedyClass, hp]

theorem endLine_run (cur : Cursor) (caps : Caps) :
    Re.endLine.run cur caps = if atLineEnd cur.rest = true then [(cur, caps)] else [] := by
  obtain ⟨before, rest⟩ := cur
  cases rest <;> simp [Re.run, atLineEnd]

theorem isShaChar_newline : isShaChar '\n' = false := by decide

theorem greedy_then_endLine (full : List Char) (caps : Caps) : ∀ (t before : List Char),
    ((greedyClass isShaChar before t).map fun c =>
        ((c, (1, full.take (full.length - c.rest.length)) :: caps) : Cursor × Caps)).flatMap
      (fun r => Re.endLine.run r.1 r.2)
    = if t.takeWhile isShaChar ≠ [] ∧ atLineEnd (t.dropWhile isShaChar) = true then
        [(⟨(t.takeWhile isShaChar).reverse ++ before, t.dropWhile isShaChar⟩,
          (1, full.take (full.length - (t.dropWhile isShaChar).length)) :: caps)]
      else [] := by
  intro t
  induction t with
  | nil => intro before; simp [greedyClass]
  | cons x t ih =>
    intro before
    by_cases hx : isShaChar x = true
    swap
    · simp [greedyClass, hx]
    rw [show greedyClass isShaChar before (x :: t)
        = greedyClass isShaChar (x :: before) t ++ [⟨x :: before, t⟩] from by
      simp [greedyClass, hx]]
    rw [List.map_append, List.flatMap_append, ih (x :: before)]
    simp only [List.map_cons, List.map_nil, List.flatMap_cons, List.flatMap_nil, List.append_nil,
      endLine_run, List.takeWhile_cons, List.dropWhile_cons, hx, if_true]
    cases t with
    | nil => simp [atLineEnd]
    | cons y t' =>
      by_cases hy : isShaChar y = true
      · have hne : y ≠ '\n' := by
          intro h
          rw [h, isShaChar_newline] at hy
          exact absurd hy (by decide)
        simp [hy, atLineEnd, hne]
      · simp [hy]

theorem stripLeading_eq_some (lit : List Char) : ∀ (text r : List Char),
    stripLeading lit text = some r → text = lit ++ r := by
  induction lit with
  | nil =>
    intro text r h
    simp only [stripLeading, Option.some.injEq] at h
    simpa using h
  | cons c cs ih =>
    intro text r h
    cases text with
    | nil => simp [stripLeading] at h
    | cons x t =>
      by_cases hx : c = x
      · subst hx
        simp only [stripLeading, if_true] at h
        rw [ih t r h]
        rfl
      · simp [stripLeading, hx] at h

theorem take_length_sub (a b : List Char) : (a ++ b).take ((a ++ b).length - b.length) = a := by
  simp

theorem take_sub_dropWhile (p : Char → Bool) (r : List Char) :
    r.take (r.length - (r.dropWhile p).length) = r.takeWhile p := by
  have h := take_length_sub (r.takeWhile p) (r.dropWhile p)
  rwa [List.takeWhile_append_dropWhile] at h

theorem defaultTriggerRe_groups : defaultTriggerRe.groups = [(1, "sha")] := by
  decide

theorem beginLine_run (cur : Cursor) (caps : Caps) :
    Re.beginLine.run cur caps = if atLineStart cur.before = true then [(cur, caps)] else [] := by
  obtain ⟨before, rest⟩ := cur
  cases before <;> simp [Re.run, atLineStart]

theorem run_shaGroup_endLine (before r : List Char) (caps : Caps) :
    (Re.cat (Re.cap 1 "sha" (Re.plus (Re.cls isShaChar))) Re.endLine).run ⟨before, r⟩ caps
    = if r.takeWhile isShaChar ≠ [] ∧ atLineEnd (r.dropWhile isShaChar) = true then
        [(⟨(r.takeWhile isShaChar).reverse ++ before, r.dropWhile isShaChar⟩,
          (1, r.takeWhile isShaChar) :: caps)]
      else [] := by
  have hplus : (Re.plus (Re.cls isShaChar)).run ⟨before, r⟩ caps
      = (greedyClass isShaChar before r).map fun c => (c, caps) :=
    plusLoop_cls isShaChar r (r.length + 1) before caps (Nat.lt_succ_self _)
  have hcap : (Re.cap 1 "sha" (Re.plus (Re.cls isShaChar))).run ⟨before, r⟩ caps
      = (greedyClass isShaChar before r).map fun c =>
          ((c, (1, r.take (r.length - c.rest.length)) :: caps) : Cursor × Caps) := by
    show ((Re.plus (Re.cls isShaChar)).run ⟨before, r⟩ caps).map _ = _
    rw [hplus, List.map_map]
    rfl
  show ((Re.cap 1 "sha" (Re.plus (Re.cls isShaChar))).run ⟨before, r⟩ caps).flatMap
    (fun x => Re.endLine.run x.1 x.2) = _
  rw [hcap, greedy_then_endLine r caps r before, take_sub_dropWhile]

theorem run_default (before text : List Char) :
    defaultTriggerRe.run ⟨before, text⟩ [] =
      if atLineStart before = true then
        match stripLeading "/ci authorize ".data text with
        | some r =>
          if r.takeWhile isShaChar ≠ [] ∧ atLineEnd (r.dropWhile isShaChar) = true then
            [(⟨(r.takeWhile isShaChar).reverse ++ ("/ci authorize ".data.reverse ++ before),
               r.dropWhile isShaChar⟩, [(1, r.takeWhile isShaChar)])]
          else []
        | none => []
      else [] := by
  show (Re.beginLine.run ⟨before, text⟩ []).flatMap (fun x =>
    ((Re.lits "/ci authorize ".data).run x.1 x.2).flatMap (fun y =>
      (Re.cat (Re.cap 1 "sha" (Re.plus (Re.cls isShaChar))) Re.endLine).run y.1 y.2)) = _
  rw [beginLine_run]
  by_cases hs : atLineStart before = true
  swap
  · simp [hs]
  simp only [hs, if_true, List.flatMap_cons, List.flatMap_nil, List.append_nil, run_lits]
  cases hl : stripLeading "/ci authorize ".data text with
  | none => simp
  | some r => simp [run_shaGroup_endLine]

theorem submatchesAt_default (before text : List Char) :
    submatchesAt defaultTriggerRe ⟨before, text⟩
      = if atLineStart before = true then triggerAt text else none := by
  unfold submatchesAt
  rw [run_default]
  by_cases hs : atLineStart before = true
  swap
  · rw [if_neg hs, if_neg hs]
  rw [if_pos hs, if_pos hs]
  unfold triggerAt
  cases hl : stripLeading "/ci authorize ".data text with
  | none => rfl
  | some r =>
    simp only []
    by_cases hc : r.takeWhile isShaChar ≠ [] ∧ atLineEnd (r.dropWhile isShaChar) = true
    swap
    · rw [if_neg hc, if_neg hc]
    rw [if_pos hc, if_pos hc]
    have ht : text = ("/ci authorize ".data ++ r.takeWhile isShaChar) ++ r.dropWhile isShaChar := by
      rw [List.append_assoc, List.takeWhile_append_dropWhile]
      exact stripLeading_eq_some _ _ _ hl
    have hw : text.take (text.length - (r.dropWhile isShaChar).length)
        = "/ci authorize ".data ++ r.takeWhile isShaChar := by
      have h := take_length_sub ("/ci authorize ".data ++ r.takeWhile isShaChar)
        (r.dropWhile isShaChar)
      rwa [← ht] at h
    simp only [hw, defaultTriggerRe_groups]
    rfl

theorem stripLeading_firstLine (lit : List Char) (hlit : '\n' ∉ lit) : ∀ text : List Char,
    stripLeading lit (firstLine text) = (stripLeading lit text).map firstLine := by
  induction lit with
  | nil => intro text; simp [stripLeading]
  | cons c cs ih =>
    intro text
    have hc : c ≠ '\n' := fun h => hlit (h ▸ List.mem_cons_self _ _)
    have hcs : '\n' ∉ cs := fun h => hlit (List.mem_cons_of_mem _ h)
    cases text with
    | nil => simp [stripLeading, firstLine]
    | cons x t =>
      by_cases hx : x = '\n'
      · subst hx
        simp [stripLeading, firstLine, hc]
      · by_cases hcx : c = x
        · subst hcx
          simp [stripLeading, firstLine, hx, ih hcs t]
        · simp [stripLeading, firstLine, hx, hcx]

theorem atLineEnd_dropWhile (r : List Char) :
    atLineEnd (r.dropWhile isShaChar) = (firstLine r).all isShaChar := by
  induction r with
  | nil => simp [atLineEnd, firstLine]
  | cons x t ih =>
    by_cases hx : isShaChar x = true
    · have hne : x ≠ '\n' := by
        intro h
        rw [h, isShaChar_newline] at hx
        exact absurd hx (by decide)
      simp [List.dropWhile_cons, firstLine, hx, hne, ih]
    · by_cases hn : x = '\n'
      · simp [List.dropWhile_cons, firstLine, hx, hn, atLineEnd, isShaChar_newline]
      · simp [List.dropWhile_cons, firstLine, hx, hn, atLineEnd]

theorem firstLine_eq_takeWhile (r : List Char) (h : (firstLine r).all isShaChar = true) :
    firstLine r = r.takeWhile isShaChar := by
  induction r with
  | nil => simp [firstLine]
  | cons x t ih =>
    by_cases hn : x = '\n'
    · simp [firstLine, hn, List.takeWhile_cons, isShaChar_newline]
    · simp only [firstLine, hn, if_false, List.all_cons, Bool.and_eq_true] at h
      simp [firstLine, hn, List.takeWhile_cons, h.1, ih h.2]

theorem triggerAt_eq_shaOfLine (text : List Char) :
    triggerAt text = (shaOfLine (firstLine text)).map triggerSubmatches := by
  unfold triggerAt shaOfLine
  rw [stripLeading_firstLine _ (by decide)]
  cases stripLeading "/ci authorize ".data text with
  | none => rfl
  | some r =>
    simp only [Option.map_some']
    rw [atLineEnd_dropWhile]
    by_cases ha : (firstLine r).all isShaChar = true
    · rw [← firstLine_eq_takeWhile r ha]
      by_cases hne : firstLine r ≠ []
      · rw [if_pos ⟨hne, ha⟩, if_pos ⟨hne, ha⟩]
        rfl
      · rw [if_neg (fun h => hne h.1), if_neg (fun h => hne h.1)]
        rfl
    · rw [if_neg (fun h => ha h.2), if_neg (fun h => ha h.2)]
      rfl

theorem splitLines_eq (text : List Char) :
    splitLines text = firstLine text :: (splitLines text).tail := by
  induction text with
  | nil => rfl
  | cons c t ih =>
    by_cases hc : c = '\n'
    · simp [splitLines, firstLine, hc]
    · simp only [splitLines, firstLine, hc, if_false]
      rw [ih]
      rfl

theorem splitLines_tail_cons (c : Char) (t : List Char) :
    (splitLines (c :: t)).tail = if atLineStart [c] = true then splitLines t else (splitLines t).tail := by
  by_cases hc : c = '\n'
  · simp [splitLines, atLineStart, hc]
  · simp only [splitLines, atLineStart, hc, if_false, decide_False]
    rw [splitLines_eq t]
    rfl

theorem atLineStart_cons (c : Char) (before : List Char) :
    atLineStart (c :: before) = atLineStart [c] := rfl

theorem findFrom_default : ∀ (text before : List Char),
    findFrom defaultTriggerRe before text
      = ((if atLineStart before = true then splitLines text else (splitLines text).tail).findSome?
          shaOfLine).map triggerSubmatches := by
  intro text
  induction text with
  | nil =>
    intro before
    simp only [findFrom, submatchesAt_default, triggerAt_eq_shaOfLine]
    by_cases hs : atLineStart before = true
    · rw [if_pos hs, if_pos hs]
      decide
    · rw [if_neg hs, if_neg hs]
      rfl
  | cons c t ih =>
    intro before
    have hrest : findFrom defaultTriggerRe (c :: before) t
        = ((splitLines (c :: t)).tail.findSome? shaOfLine).map triggerSubmatches := by
      rw [ih (c :: before), atLineStart_cons, splitLines_tail_cons]
    simp only [findFrom, submatchesAt_default, triggerAt_eq_shaOfLine]
    by_cases hs : atLineStart before = true
    · rw [if_pos hs, if_pos hs, hrest]
      conv_rhs => rw [splitLines_eq]
      cases hsha : shaOfLine (firstLine (c :: t)) with
      | none => simp [List.findSome?_cons, hsha]
      | some g => simp [List.findSome?_cons, hsha]
    · rw [if_neg hs, if_neg hs, hrest]

theorem shaOfLine_eq_some (line g : List Char) :
    shaOfLine line = some g ↔
      line = "/ci authorize ".data ++ g ∧ g ≠ [] ∧ ∀ c ∈ g, isShaChar c = true := by
  unfold shaOfLine
  constructor
  · intro h
    cases hl : stripLeading "/ci authorize ".data line with
    | none => rw [hl] at h; exact absurd h (by simp)
    | some r =>
      rw [hl] at h
      simp only [] at h
      by_cases hc : r ≠ [] ∧ r.all isShaChar = true
      · rw [if_pos hc] at h
        have hr : r = g := Option.some.inj h
        subst hr
        exact ⟨stripLeading_eq_some _ _ _ hl, hc.1, fun c hcm => List.all_eq_true.mp hc.2 c hcm⟩
      · rw [if_neg hc] at h
        exact absurd h (by simp)
  · rintro ⟨hline, hne, hall⟩
    subst hline
    have hs : stripLeading "/ci authorize ".data ("/ci authorize ".data ++ g) = some g := by
      simp [stripLeading]
    rw [hs]
    simp only []
    rw [if_pos ⟨hne, List.all_eq_true.mpr hall⟩]

theorem isShaChar_iff_toNat (c : Char) :
    isShaChar c = true ↔ (97 ≤ c.toNat ∧ c.toNat ≤ 102) ∨ (48 ≤ c.toNat ∧ c.toNat ≤ 57) := by
  simp only [isShaChar, Bool.or_eq_true, Bool.and_eq_true, decide_eq_true_eq, Char.le_def,
    UInt32.le_def, BitVec.le_def]
  rfl

theorem isShaChar_iff_mem (c : Char) :
    isShaChar c = true ↔ c ∈ "0123456789abcdef".data := by
  constructor
  · intro h
    have h2 := (isShaChar_iff_toNat c).mp h
    have hc : c = Char.ofNat c.toNat := (Char.ofNat_toNat c).symm
    rw [hc]
    generalize c.toNat = n at h2
    rcases h2 with ⟨h1, h2⟩ | ⟨h1, h2⟩ <;> interval_cases n <;> decide
  · intro h
    revert c
    decide

/-- C11: for the default trigger pattern and every comment body,
`FindCommentSHA` returns the SHA of the first line, in order of appearance of
the lines separated by the newline character, that is exactly
"/ci authorize " followed by one or more characters of `0-9a-f`, and the
empty string when no line has that form; with the three vectors of
`TestFindCommentSHA`. -/
theorem findCommentSHA_default_first_line :
    (∀ body : String, FindCommentSHA defaultTriggerPattern body = firstTriggerSHA body) ∧
    (∀ line g : List Char, shaOfLine line = some g ↔
      line = "/ci authorize ".data ++ g ∧ g ≠ [] ∧ ∀ c ∈ g, isShaChar c = true) ∧
    (∀ c : Char, isShaChar c = true ↔ c ∈ "0123456789abcdef".data) ∧
    FindCommentSHA defaultTriggerPattern "/ci authorize 12345678" = "12345678" ∧
    FindCommentSHA defaultTriggerPattern "no match here" = "" ∧
    FindCommentSHA defaultTriggerPattern
      "some commentary here or whatever.\n/ci authorize 12345678\nmore commentary\n/ci authorize abcd"
      = "12345678" := by
  refine ⟨fun body => ?_, shaOfLine_eq_some, ?_, by decide, by decide, by decide⟩
  · unfold FindCommentSHA firstTriggerSHA
    show (match findFrom defaultTriggerRe [] body.data with
      | none => ""
      | some m => findNamedGroup ("" :: defaultTriggerRe.groups.map Prod.snd) 0 m) = _
    rw [findFrom_default, defaultTriggerRe_groups]
    simp only [atLineStart, if_true]
    cases (splitLines body.data).findSome? shaOfLine with
    | none => rfl
    | some g => rfl
  · exact isShaChar_iff_mem

/-- Witness of C11: a body whose first trigger line ends in a carriage return
and whose second has a character outside the class; the SHA is that of the
third line. -/
theorem findCommentSHA_default_first_line_witness :
    FindCommentSHA defaultTriggerPattern
      "x\n/ci authorize 12\r\n/ci authorize abcg\n/ci authorize ab" = "ab" :=
  (findCommentSHA_default_first_line.1
    "x\n/ci authorize 12\r\n/ci authorize abcg\n/ci authorize ab").trans (by decide)

/-! ### The whitelist -/

theorem members_foldl_set (members : List (Option User)) : ∀ (s : LoginSet) (login : String),
    (members.foldl (fun s member => s.set (User.GetLogin member)) s) login = true ↔
      s login = true ∨ ∃ member ∈ members, User.GetLogin member = login := by
  induction members with
  | nil => intro s login; simp
  | cons a rest ih =>
    intro s login
    rw [List.foldl_cons, ih]
    simp only [LoginSet.set, List.mem_cons, exists_eq_or_imp]
    by_cases h : login = User.GetLogin a
    · simp [h]
    · have h' : ¬ User.GetLogin a = login := fun hh => h hh.symm
      simp [h, h']

theorem syncTeams_ok (gh : TeamsAPI) (org : String) : ∀ (teams : List String) (i : Nat)
    (s : LoginSet),
    (∀ j team, teams[j]? = some team → (gh (i + j) org team).err = none) →
    (syncTeams gh org teams i s).2 = none ∧
    ∀ login, (syncTeams gh org teams i s).1 login = true ↔
      s login = true ∨ ∃ j team, teams[j]? = some team ∧
        ∃ member ∈ (gh (i + j) org team).members, User.GetLogin member = login := by
  intro teams
  induction teams with
  | nil => intro i s _; simp [syncTeams]
  | cons team rest ih =>
    intro i s hok
    have h0 : (gh i org team).err = none := by simpa using hok 0 team (by simp)
    have hrest : ∀ j t, rest[j]? = some t → (gh (i + 1 + j) org t).err = none := by
      intro j t hj
      have := hok (j + 1) t (by simpa using hj)
      rwa [show i + (j + 1) = i + 1 + j from by omega] at this
    obtain ⟨e1, e2⟩ := ih (i + 1)
      ((gh i org team).members.foldl (fun s member => s.set (User.GetLogin member)) s) hrest
    simp only [syncTeams, syncTeam, h0]
    refine ⟨e1, fun login => ?_⟩
    rw [e2, members_foldl_set]
    constructor
    · rintro ((h | ⟨member, hm, hl⟩) | ⟨j, t, hj, member, hm, hl⟩)
      · exact Or.inl h
      · exact Or.inr ⟨0, team, by simp, member, by simpa using hm, hl⟩
      · refine Or.inr ⟨j + 1, t, by simpa using hj, member, ?_, hl⟩
        rwa [show i + (j + 1) = i + 1 + j from by omega]
    · rintro (h | ⟨j, t, hj, member, hm, hl⟩)
      · exact Or.inl (Or.inl h)
      · cases j with
        | zero =>
          have ht : team = t := by simpa using hj
          subst ht
          exact Or.inl (Or.inr ⟨member, by simpa using hm, hl⟩)
        | succ j =>
          refine Or.inr ⟨j, t, by simpa using hj, member, ?_, hl⟩
          rwa [show i + (j + 1) = i + 1 + j from by omega] at hm

theorem syncTeams_fail (gh : TeamsAPI) (org : String) : ∀ (teams : List String) (i : Nat)
    (s : LoginSet),
    (∃ j team, teams[j]? = some team ∧ (gh (i + j) org team).err ≠ none) →
    (syncTeams gh org teams i s).2 ≠ none := by
  intro teams
  induction teams with
  | nil => intro i s h; simp at h
  | cons team rest ih =>
    intro i s hfail
    cases h0 : (gh i org team).err with
    | some err => simp [syncTeams, syncTeam, h0]
    | none =>
      simp only [syncTeams, syncTeam, h0]
      apply ih
      obtain ⟨j, t, hj, he⟩ := hfail
      cases j with
      | zero =>
        have ht : team = t := by simpa using hj
        subst ht
        exact absurd h0 (by simpa using he)
      | succ j =>
        refine ⟨j, t, by simpa using hj, ?_⟩
        rwa [show i + (j + 1) = i + 1 + j from by omega] at he

theorem sync_of_fail (m : TeamWhitelist) (gh : TeamsAPI)
    (hfail : ∃ i team, m.teams[i]? = some team ∧ (gh i m.org team).err ≠ none) :
    (m.sync gh).1 = m ∧ (m.sync gh).2 ≠ none := by
  have h := syncTeams_fail gh m.org m.teams 0 (fun _ => false)
    (by simpa using hfail)
  unfold TeamWhitelist.sync
  cases hs : syncTeams gh m.org m.teams 0 (fun _ => false) with
  | mk s err =>
    rw [hs] at h
    cases err with
    | none => exact absurd rfl h
    | some x => simp

/-- C12: after a `sync` in which every configured team query succeeds, `sync`
returns nil and `Whitelisted(login)` is true if and only if `login` is the
login of a member in the answer for at least one configured team in that
cycle; the previous set plays no part. -/
theorem sync_success_is_union (m : TeamWhitelist) (gh : TeamsAPI)
    (hok : ∀ i team, m.teams[i]? = some team → (gh i m.org team).err = none) :
    (m.sync gh).2 = none ∧
    ∀ login, (m.sync gh).1.Whitelisted login = true ↔
      ∃ i team, m.teams[i]? = some team ∧
        ∃ member ∈ (gh i m.org team).members, User.GetLogin member = login := by
  obtain ⟨e1, e2⟩ := syncTeams_ok gh m.org m.teams 0 (fun _ => false) (by simpa using hok)
  unfold TeamWhitelist.sync
  cases hs : syncTeams gh m.org m.teams 0 (fun _ => false) with
  | mk s err =>
    rw [hs] at e1 e2
    simp only [] at e1
    subst e1
    refine ⟨rfl, fun login => ?_⟩
    simpa [TeamWhitelist.Whitelisted] using e2 login

/-- Witness of C12: the test.  After a cycle with empty teams "john" is not
whitelisted; after the cycle with editors (john, jenny) and maintainers
(jenny, max) the three are whitelisted and "not-a-member" is not; after one
more cycle with empty teams "john" is not whitelisted any more. -/
theorem sync_success_is_union_witness :
    ((NewTeamWhitelist "ethereum-optimism" testTeams).sync emptyCycle).1.Whitelisted "john" = false ∧
    testWhitelist.Whitelisted "john" = true ∧
    testWhitelist.Whitelisted "jenny" = true ∧
    testWhitelist.Whitelisted "max" = true ∧
    testWhitelist.Whitelisted "not-a-member" = false ∧
    (testWhitelist.sync emptyCycle).1.Whitelisted "john" = false :=
  ⟨by decide,
   ((sync_success_is_union ((NewTeamWhitelist "ethereum-optimism" testTeams).sync emptyCycle).1
      membersCycle (fun _ team _ => by unfold membersCycle; split_ifs <;> rfl)).2 "john").mpr
     ⟨0, "editors", by decide, some ⟨some "john"⟩, by decide, rfl⟩,
   by decide, by decide, by decide, by decide⟩

/-- C13: a failed refresh is atomic.  If the query of any configured team
fails, `sync` returns a non-nil error and `Whitelisted` answers for every
login as before the call. -/
theorem sync_failure_keeps_whitelist (m : TeamWhitelist) (gh : TeamsAPI)
    (hfail : ∃ i team, m.teams[i]? = some team ∧ (gh i m.org team).err ≠ none) :
    (m.sync gh).2 ≠ none ∧
    ∀ login, (m.sync gh).1.Whitelisted login = m.Whitelisted login := by
  obtain ⟨h1, h2⟩ := sync_of_fail m gh hfail
  exact ⟨h2, fun login => by rw [h1]⟩

/-- Witness of C13: on the whitelist of the test, a cycle whose first team is
answered with "mallory" and whose second query fails returns an error, leaves
"john" whitelisted and does not whitelist "mallory". -/
theorem sync_failure_keeps_whitelist_witness :
    (testWhitelist.sync failingCycle).2 ≠ none ∧
    (testWhitelist.sync failingCycle).1.Whitelisted "john" = true ∧
    (testWhitelist.sync failingCycle).1.Whitelisted "mallory" = false :=
  have w := sync_failure_keeps_whitelist testWhitelist failingCycle
    ⟨1, "maintainers", by decide, by decide⟩
  ⟨w.1, (w.2 "john").trans (by decide), (w.2 "mallory").trans (by decide)⟩

theorem foldl_failed_syncs (org : String) (teams : List String) : ∀ (cycles : List TeamsAPI),
    (∀ gh ∈ cycles, ∃ i team, teams[i]? = some team ∧ (gh i org team).err ≠ none) →
    cycles.foldl (fun m gh => (m.sync gh).1) (NewTeamWhitelist org teams)
      = NewTeamWhitelist org teams := by
  intro cycles
  induction cycles with
  | nil => intro _; rfl
  | cons gh rest ih =>
    intro hfail
    rw [List.foldl_cons,
      (sync_of_fail (NewTeamWhitelist org teams) gh (hfail gh (List.mem_cons_self _ _))).1]
    exact ih (fun g hg => hfail g (List.mem_cons_of_mem _ hg))

/-- C17: the whitelist fails closed before its first successful refresh.  On
the whitelist made by `NewTeamWhitelist`, after any number of `sync` calls
that all failed, `Whitelisted` is false for every login; a handler that uses
it rejects every event that passes checks 1 to 6 with `ErrNonWhitelisted`,
after the fetch and the whitelist query alone, so `Repush` is not invoked. -/
theorem whitelist_fails_closed (org : String) (teams : List String) (cycles : List TeamsAPI)
    (hfail : ∀ gh ∈ cycles, ∃ i team, teams[i]? = some team ∧ (gh i org team).err ≠ none) :
    (∀ login,
      (cycles.foldl (fun m gh => (m.sync gh).1) (NewTeamWhitelist org teams)).Whitelisted login
        = false) ∧
    ∀ (U : Char → Char) (h : EventHandler) (e : Option IssueCommentEvent) (issue : Issue),
      h.whitelist
        = (cycles.foldl (fun m gh => (m.sync gh).1) (NewTeamWhitelist org teams)).toWhitelister →
      Checks1to3 e issue → (fetchOf h issue).err = none →
      PullRequest.GetState (fetchOf h issue).pr = "open" →
      forkRepoOf (fetchOf h issue).pr ≠ h.config.Org ++ "/" ++ h.config.Repo →
      OnIssueComment U h e
        = ⟨Result.returned (some ErrNonWhitelisted),
           [Call.PullRequestsGet h.config.Org h.config.Repo (Issue.GetNumber (some issue)),
            Call.Whitelisted (senderLoginOf e)]⟩ := by
  rw [foldl_failed_syncs org teams cycles hfail]
  refine ⟨fun login => rfl, fun U h e issue hw c3 h4 h5 h6 => ?_⟩
  exact branch_nonWhitelisted U h e issue c3 h4 h5 h6 (by rw [hw]; rfl)

/-- Witness of C17: with the whitelist of two failed refreshes behind the
handler of the test, the comment that the test repushes is rejected with
`ErrNonWhitelisted`. -/
theorem whitelist_fails_closed_witness :
    OnIssueComment id
        ⟨testHandler.gh,
         ([failingCycle, failingCycle].foldl (fun m gh => (m.sync gh).1)
           (NewTeamWhitelist "ethereum-optimism" testTeams)).toWhitelister,
         testHandler.config, testHandler.repusher⟩
        (testEvent 3 "whitelisted" "/ci authorize aaaaaaaa")
      = ⟨Result.returned (some ErrNonWhitelisted),
         [Call.PullRequestsGet "ethereum-optimism" "optimism" 3, Call.Whitelisted "whitelisted"]⟩ :=
  (whitelist_fails_closed "ethereum-optimism" testTeams [failingCycle, failingCycle]
    (fun _ hg => by
      simp only [List.mem_cons, List.mem_singleton, List.not_mem_nil, or_false, or_self] at hg
      subst hg
      exact ⟨1, "maintainers", by decide, by decide⟩)).2 id _
    (testEvent 3 "whitelisted" "/ci authorize aaaaaaaa") testIssue3 rfl
    ⟨by decide, by decide, by decide⟩ (by decide) (by decide) (by decide)

/-! ### The server -/

/-- C14: the response of `ServeHTTP`, for every request.  GET /healthz gives
200 "ok" without validating the payload or invoking the event handler.
Otherwise a failed validation, or a failed parse after it, gives 400
"invalid request" and the handler is not invoked; an issue-comment event gives
200 "ok" when `ServeOnIssueComment` returns nil and 500 "failed to process
issue comment" when it returns an error, the handler being invoked once with
the event; any other parsed event gives 200 "ok" and the handler is not
invoked. -/
theorem serveHTTP_decision_table (lib : WebhookLib) (s : Server) (r : Request) :
    (r.Method = "GET" ∧ r.Path = "/healthz" →
      s.ServeHTTP lib r = ⟨some ⟨200, "ok"⟩, [ServerCall.RecordHTTPRequest 200]⟩) ∧
    (¬ (r.Method = "GET" ∧ r.Path = "/healthz") →
      ((lib.ValidatePayload r s.webhookSecret).err ≠ none →
        s.ServeHTTP lib r = ⟨some ⟨400, "invalid request"⟩,
          [ServerCall.ValidatePayload, ServerCall.RecordHTTPRequest 400]⟩) ∧
      ((lib.ValidatePayload r s.webhookSecret).err = none →
        ((lib.ParseWebHook r.WebHookType (lib.ValidatePayload r s.webhookSecret).payload).err
            ≠ none →
          s.ServeHTTP lib r = ⟨some ⟨400, "invalid request"⟩,
            [ServerCall.ValidatePayload, ServerCall.ParseWebHook r.WebHookType,
             ServerCall.RecordHTTPRequest 400]⟩) ∧
        ((lib.ParseWebHook r.WebHookType (lib.ValidatePayload r s.webhookSecret).payload).err
            = none →
          (∀ e, (lib.ParseWebHook r.WebHookType
                (lib.ValidatePayload r s.webhookSecret).payload).event
              = some (WebhookEvent.issueComment e) →
            (s.evHdlr (some e) = Result.returned none →
              s.ServeHTTP lib r = ⟨some ⟨200, "ok"⟩,
                [ServerCall.ValidatePayload, ServerCall.ParseWebHook r.WebHookType,
                 ServerCall.RecordReceivedWebhook r.WebHookType,
                 ServerCall.ServeOnIssueComment e, ServerCall.RecordHTTPRequest 200]⟩) ∧
            (∀ err, s.evHdlr (some e) = Result.returned (some err) →
              s.ServeHTTP lib r = ⟨some ⟨500, "failed to process issue comment"⟩,
                [ServerCall.ValidatePayload, ServerCall.ParseWebHook r.WebHookType,
                 ServerCall.RecordReceivedWebhook r.WebHookType,
                 ServerCall.ServeOnIssueComment e, ServerCall.RecordHTTPRequest 500]⟩)) ∧
          ((∀ e, (lib.ParseWebHook r.WebHookType
                (lib.ValidatePayload r s.webhookSecret).payload).event
              ≠ some (WebhookEvent.issueComment e)) →
            s.ServeHTTP lib r = ⟨some ⟨200, "ok"⟩,
              [ServerCall.ValidatePayload, ServerCall.ParseWebHook r.WebHookType,
               ServerCall.RecordReceivedWebhook r.WebHookType,
               ServerCall.RecordHTTPRequest 200]⟩)))) := by
  refine ⟨fun hh => ?_, fun hh => ⟨fun hv => ?_, fun hv => ⟨fun hp => ?_, fun hp =>
    ⟨fun e he => ⟨fun hn => ?_, fun err hr => ?_⟩, fun ho => ?_⟩⟩⟩⟩
  · simp [Server.ServeHTTP, hh, writeStatus]
  · obtain ⟨x, hx⟩ := Option.ne_none_iff_exists'.mp hv
    simp [Server.ServeHTTP, hh, hx, writeStatus]
  · obtain ⟨x, hx⟩ := Option.ne_none_iff_exists'.mp hp
    simp [Server.ServeHTTP, hh, hv, hx, writeStatus]
  · simp [Server.ServeHTTP, hh, hv, hp, he, hn, writeStatus]
  · simp [Server.ServeHTTP, hh, hv, hp, he, hr, writeStatus]
  · unfold Server.ServeHTTP
    rw [if_neg hh]
    simp only [hv, hp]
    simp [writeStatus]

/-- Witness of C14: the four cases of `TestServer`, and the liveness probe. -/
theorem serveHTTP_decision_table_witness :
    (testServer.ServeHTTP testWebhookLib
        (testRequest "issue_comment" "\"this is no JSON i've ever seen\"")).response
      = some ⟨400, "invalid request"⟩ ∧
    (testServer.ServeHTTP testWebhookLib (testRequest "" "\x7b\x7d")).response
      = some ⟨400, "invalid request"⟩ ∧
    testServer.ServeHTTP testWebhookLib
        (testRequest "issue_comment" "\x7b\"action\":\"created\"\x7d")
      = ⟨some ⟨200, "ok"⟩,
         [ServerCall.ValidatePayload, ServerCall.ParseWebHook "issue_comment",
          ServerCall.RecordReceivedWebhook "issue_comment",
          ServerCall.ServeOnIssueComment ⟨some "created", none, none, none⟩,
          ServerCall.RecordHTTPRequest 200]⟩ ∧
    testServer.ServeHTTP testWebhookLib (testRequest "label" "\x7b\x7d")
      = ⟨some ⟨200, "ok"⟩,
         [ServerCall.ValidatePayload, ServerCall.ParseWebHook "label",
          ServerCall.RecordReceivedWebhook "label", ServerCall.RecordHTTPRequest 200]⟩ ∧
    testServer.ServeHTTP testWebhookLib ⟨"GET", "/healthz", "", ""⟩
      = ⟨some ⟨200, "ok"⟩, [ServerCall.RecordHTTPRequest 200]⟩ :=
  ⟨by decide, by decide,
   (((serveHTTP_decision_table testWebhookLib testServer
      (testRequest "issue_comment" "\x7b\"action\":\"created\"\x7d")).2 (by decide)).2 rfl).2 rfl
      |>.1 ⟨some "created", none, none, none⟩ rfl |>.1 rfl,
   by decide,
   (serveHTTP_decision_table testWebhookLib testServer ⟨"GET", "/healthz", "", ""⟩).1
     ⟨rfl, rfl⟩⟩

/-! ### Distinct pairs, distinct hashed strings -/

theorem unhex_fmtByteHex : ∀ b < 256, unhexByte (fmtByteHex b) = b := by
  decide

theorem fmtSbx_injective : ∀ (bs cs : List Nat), (∀ b ∈ bs, b < 256) → (∀ c ∈ cs, c < 256) →
    fmtSbx bs = fmtSbx cs → bs = cs := by
  intro bs
  induction bs with
  | nil =>
    intro cs _ _ h
    cases cs with
    | nil => rfl
    | cons c cs => simp [fmtSbx, fmtByteHex] at h
  | cons b bs ih =>
    intro cs hb hc h
    cases cs with
    | nil => simp [fmtSbx, fmtByteHex] at h
    | cons c cs =>
      have hb0 : b < 256 := hb b (List.mem_cons_self _ _)
      have hc0 : c < 256 := hc c (List.mem_cons_self _ _)
      simp only [fmtSbx, List.flatMap_cons, fmtByteHex, List.cons_append, List.nil_append,
        List.cons.injEq] at h
      obtain ⟨h1, h2, h3⟩ := h
      have hbc : fmtByteHex b = fmtByteHex c := by
        simp only [fmtByteHex, h1, h2]
      have e1 := congrArg unhexByte hbc
      rw [unhex_fmtByteHex b hb0, unhex_fmtByteHex c hc0] at e1
      subst e1
      rw [ih cs (fun x hx => hb x (List.mem_cons_of_mem _ hx))
        (fun x hx => hc x (List.mem_cons_of_mem _ hx)) h3]

/-- Two texts split at a slash, with as many slashes before it, split alike. -/
theorem split_at_slash : ∀ (l1 l2 r1 r2 : List Char),
    l1.count '/' = l2.count '/' → l1 ++ '/' :: r1 = l2 ++ '/' :: r2 → l1 = l2 ∧ r1 = r2 := by
  intro l1
  induction l1 with
  | nil =>
    intro l2 r1 r2 hc h
    cases l2 with
    | nil => simpa using h
    | cons y l2 =>
      simp only [List.nil_append, List.cons_append, List.cons.injEq] at h
      rw [← h.1] at hc
      simp at hc
  | cons x l1 ih =>
    intro l2 r1 r2 hc h
    cases l2 with
    | nil =>
      simp only [List.nil_append, List.cons_append, List.cons.injEq] at h
      rw [h.1] at hc
      simp at hc
    | cons y l2 =>
      simp only [List.cons_append, List.cons.injEq] at h
      obtain ⟨hxy, ht⟩ := h
      subst hxy
      have hc' : l1.count '/' = l2.count '/' := by
        simp only [List.count_cons] at hc
        omega
      obtain ⟨e1, e2⟩ := ih l2 r1 r2 hc' ht
      exact ⟨by rw [e1], e2⟩

/-- C16: the string hashed by `FormatRepushBranch` identifies the fork and
the branch when each fork name contains exactly one slash: equal hashed
strings then come from equal fork names and equal branch names, so two
different pairs get the same destination branch only when two different
strings have the same SHA-256.  Without the condition on the slashes the
pairs ("a/b", "c") and ("a", "b/c") give the same hashed string. -/
theorem hashed_string_identifies_pair :
    (∀ forkRepo1 forkRepo2 srcBranch1 srcBranch2 : String,
      forkRepo1.data.count '/' = 1 → forkRepo2.data.count '/' = 1 →
      (Sprintf "%s/%s" [FmtArg.str forkRepo1, FmtArg.str srcBranch1]
          = Sprintf "%s/%s" [FmtArg.str forkRepo2, FmtArg.str srcBranch2] →
        forkRepo1 = forkRepo2 ∧ srcBranch1 = srcBranch2) ∧
      (FormatRepushBranch forkRepo1 srcBranch1 = FormatRepushBranch forkRepo2 srcBranch2 →
        (forkRepo1 = forkRepo2 ∧ srcBranch1 = srcBranch2) ∨
        (forkRepo1 ++ "/" ++ srcBranch1 ≠ forkRepo2 ++ "/" ++ srcBranch2 ∧
          Sum256 (utf8Bytes (forkRepo1 ++ "/" ++ srcBranch1))
            = Sum256 (utf8Bytes (forkRepo2 ++ "/" ++ srcBranch2))))) ∧
    Sprintf "%s/%s" [FmtArg.str "a/b", FmtArg.str "c"]
      = Sprintf "%s/%s" [FmtArg.str "a", FmtArg.str "b/c"] ∧
    FormatRepushBranch "a/b" "c" = FormatRepushBranch "a" "b/c" := by
  refine ⟨fun f1 f2 b1 b2 h1 h2 => ?_, by decide, by decide⟩
  have key : f1 ++ "/" ++ b1 = f2 ++ "/" ++ b2 → f1 = f2 ∧ b1 = b2 := by
    intro h
    have hd := congrArg String.data h
    simp only [String.data_append] at hd
    have hd' : f1.data ++ '/' :: b1.data = f2.data ++ '/' :: b2.data := by
      simpa using hd
    obtain ⟨e1, e2⟩ := split_at_slash _ _ _ _ (h1.trans h2.symm) hd'
    exact ⟨String.ext e1, String.ext e2⟩
  refine ⟨fun h => key (by rwa [sprintf_slash, sprintf_slash] at h), fun h => ?_⟩
  by_cases hs : f1 ++ "/" ++ b1 = f2 ++ "/" ++ b2
  · exact Or.inl (key hs)
  · refine Or.inr ⟨hs, ?_⟩
    have hd := congrArg String.data h
    rw [formatRepushBranch_data, formatRepushBranch_data] at hd
    exact fmtSbx_injective _ _ (sum256_lt _) (sum256_lt _) (List.append_cancel_left hd)

/-- Witness of C16: the fork "foouser/optimism" with the branch
"branch/with/slashes" and the fork "foouser/optimism-branch" with the branch
"with/slashes" are hashed from different strings. -/
theorem hashed_string_identifies_pair_witness :
    Sprintf "%s/%s" [FmtArg.str "foouser/optimism", FmtArg.str "branch/with/slashes"]
      ≠ Sprintf "%s/%s" [FmtArg.str "foouser/optimism-branch", FmtArg.str "with/slashes"] :=
  fun h => absurd ((hashed_string_identifies_pair.1 "foouser/optimism" "foouser/optimism-branch"
    "branch/with/slashes" "with/slashes" (by decide) (by decide)).1 h).1 (by decide)

end Bailiff
